import Mathlib

/-!
Verification development for a flight-schedule CSV parser and query tool.

The program parses CSV lines into six-field flight records, validates each
record (regular-expression checks, date-time format checks, a chronological
cross-field check, and a price check), collects error entries with global
line numbers, serializes the accepted records to a JSON database file, and
evaluates simple conjunctive filter queries against loaded records.

The embedding below translates the program's functions into executable Lean
definitions.  String scanning is done on `List Char`.  Library semantics the
program relies on are modelled explicitly:

* `re.match(r"^...$", s)` anchors at the start, and `$` matches either at
  the very end of the string or just before a newline that is the last
  character (documented behaviour of Python's `$` outside MULTILINE mode).
* `datetime.strptime(s, "%Y-%m-%d %H:%M")` compiles the format into a
  regular expression in which `%Y` is exactly four digits, `%m` is
  `1[0-2]|0[1-9]|[1-9]`, `%d` is `3[01]|[12]\d|0[1-9]|[1-9]`, `%H` is
  `2[0-3]|[0-1]\d|\d`, `%M` is `[0-5]\d|\d`, and a literal space in the
  format becomes `\s+`; the whole input must be consumed, and the resulting
  numbers must form a constructible datetime (year at least 1, day within
  the month, leap years observed).  Digits and whitespace are modelled in
  their ASCII range.
* `float(s)` strips surrounding whitespace and accepts an optional sign,
  a decimal mantissa containing at least one digit, and an optional
  exponent part; values are modelled exactly as rational numbers.  The
  special spellings (inf, nan, underscore separators) are outside the model.
-/

set_option maxRecDepth 4000

namespace FlightParser

/-- ASCII whitespace as recognized by Python's `str.strip()` and by the
regex class `\s` on ASCII input. -/
def pyIsSpace (c : Char) : Bool :=
  c = ' ' || c = '\t' || c = '\n' || c = '\x0b' || c = '\x0c' || c = '\r'

def isAsciiDigit (c : Char) : Bool := '0' ≤ c && c ≤ '9'

def isAsciiUpper (c : Char) : Bool := 'A' ≤ c && c ≤ 'Z'

def isAsciiLower (c : Char) : Bool := 'a' ≤ c && c ≤ 'z'

/-- One character of the regex class `[A-Za-z0-9]`. -/
def isAlnumChar (c : Char) : Bool := isAsciiDigit c || isAsciiUpper c || isAsciiLower c

/-- Drop leading ASCII whitespace. -/
def dropSpace : List Char → List Char
  | [] => []
  | c :: cs => if pyIsSpace c then dropSpace cs else c :: cs

/-- Model of Python `str.strip()`: remove whitespace from both ends. -/
def pyStripL (l : List Char) : List Char :=
  ((dropSpace ((dropSpace l).reverse)).reverse)

def pyStrip (s : String) : String := ⟨pyStripL s.data⟩

/-- A full match of `[A-Za-z0-9]{2,8}` against the whole character list. -/
def fullAlnum28 (d : List Char) : Bool :=
  d.all isAlnumChar && decide (2 ≤ d.length) && decide (d.length ≤ 8)

/-- Model of `re.match(r"^[A-Za-z0-9]{2,8}$", s)` being a match: either the
whole string matches the class repetition, or everything before a final
newline does (Python's `$` also asserts just before a terminal newline). -/
def reMatchAlnum28 (s : String) : Bool :=
  fullAlnum28 s.data || (s.data.getLast? == some '\n' && fullAlnum28 s.data.dropLast)

/-- A full match of `[A-Z]{3}` against the whole character list. -/
def fullUpper3 (d : List Char) : Bool :=
  d.all isAsciiUpper && decide (d.length = 3)

/-- Model of `re.match(r"^[A-Z]{3}$", s)` being a match (same `$` rule). -/
def reMatchUpper3 (s : String) : Bool :=
  fullUpper3 s.data || (s.data.getLast? == some '\n' && fullUpper3 s.data.dropLast)

/-- Numeric value of an ASCII digit character. -/
def digitVal (c : Char) : Nat := c.toNat - 48

/-- Read one mandatory digit. -/
def readDigit (c : Char) : Option Nat :=
  if isAsciiDigit c then some (digitVal c) else none

/-- The `%Y` directive: exactly four digits. -/
def parseYear4 : List Char → Option (Nat × List Char)
  | c1 :: c2 :: c3 :: c4 :: rest =>
    match readDigit c1, readDigit c2, readDigit c3, readDigit c4 with
    | some a, some b, some c, some d => some (((a * 10 + b) * 10 + c) * 10 + d, rest)
    | _, _, _, _ => none
  | _ => none

/-- The `%m` directive, regex `1[0-2]|0[1-9]|[1-9]` with its alternation
order (two-digit forms preferred; no observable backtracking occurs because
every following format token rejects a digit). -/
def parseMonth : List Char → Option (Nat × List Char)
  | [] => none
  | c :: rest =>
    if c = '1' then
      match rest with
      | c2 :: rest2 =>
        if '0' ≤ c2 && c2 ≤ '2' then some (10 + digitVal c2, rest2) else some (1, rest)
      | [] => some (1, [])
    else if c = '0' then
      match rest with
      | c2 :: rest2 =>
        if '1' ≤ c2 && c2 ≤ '9' then some (digitVal c2, rest2) else none
      | [] => none
    else if '2' ≤ c && c ≤ '9' then some (digitVal c, rest)
    else none

/-- The `%d` directive, regex `3[01]|[12]\d|0[1-9]|[1-9]`. -/
def parseDay : List Char → Option (Nat × List Char)
  | [] => none
  | c :: rest =>
    if c = '3' then
      match rest with
      | c2 :: rest2 =>
        if c2 = '0' || c2 = '1' then some (30 + digitVal c2, rest2) else some (3, rest)
      | [] => some (3, [])
    else if c = '1' || c = '2' then
      match rest with
      | c2 :: rest2 =>
        if isAsciiDigit c2 then some (digitVal c * 10 + digitVal c2, rest2)
        else some (digitVal c, rest)
      | [] => some (digitVal c, [])
    else if c = '0' then
      match rest with
      | c2 :: rest2 =>
        if '1' ≤ c2 && c2 ≤ '9' then some (digitVal c2, rest2) else none
      | [] => none
    else if '4' ≤ c && c ≤ '9' then some (digitVal c, rest)
    else none

/-- The `%H` directive, regex `2[0-3]|[0-1]\d|\d`. -/
def parseHour : List Char → Option (Nat × List Char)
  | [] => none
  | c :: rest =>
    if c = '2' then
      match rest with
      | c2 :: rest2 =>
        if '0' ≤ c2 && c2 ≤ '3' then some (20 + digitVal c2, rest2) else some (2, rest)
      | [] => some (2, [])
    else if c = '0' || c = '1' then
      match rest with
      | c2 :: rest2 =>
        if isAsciiDigit c2 then some (digitVal c * 10 + digitVal c2, rest2)
        else some (digitVal c, rest)
      | [] => some (digitVal c, [])
    else if isAsciiDigit c then some (digitVal c, rest)
    else none

/-- The `%M` directive, regex `[0-5]\d|\d`. -/
def parseMinute : List Char → Option (Nat × List Char)
  | [] => none
  | c :: rest =>
    if '0' ≤ c && c ≤ '5' then
      match rest with
      | c2 :: rest2 =>
        if isAsciiDigit c2 then some (digitVal c * 10 + digitVal c2, rest2)
        else some (digitVal c, rest)
      | [] => some (digitVal c, [])
    else if isAsciiDigit c then some (digitVal c, rest)
    else none

/-- The `\s+` token a literal space in the format expands to: one mandatory
whitespace character followed by a greedy run (safe because the next token
starts with a digit, which is never whitespace). -/
def parseSpaces1 : List Char → Option (List Char)
  | [] => none
  | c :: rest => if pyIsSpace c then some (rest.dropWhile pyIsSpace) else none

/-- One literal character of the format. -/
def parseLit (c : Char) : List Char → Option (List Char)
  | [] => none
  | x :: rest => if x = c then some rest else none

/-- Gregorian leap-year rule used by `datetime`. -/
def isLeap (y : Nat) : Bool := y % 4 = 0 && (y % 100 ≠ 0 || y % 400 = 0)

/-- Days in a month, as validated by the `datetime` constructor. -/
def daysInMonth (y m : Nat) : Nat :=
  if m = 2 then (if isLeap y then 29 else 28)
  else if m = 4 || m = 6 || m = 9 || m = 11 then 30
  else 31

/-- The value `datetime.strptime` produces: a calendar point in time with
minute resolution (seconds and finer are zero under this format). -/
structure DT where
  year : Nat
  month : Nat
  day : Nat
  hour : Nat
  minute : Nat
deriving DecidableEq, Repr

/-- Strict chronological order on parsed datetimes (lexicographic on the
components, exactly how Python compares `datetime` objects). -/
def dtLt (a b : DT) : Bool :=
  decide (a.year < b.year) || (decide (a.year = b.year) &&
    (decide (a.month < b.month) || (decide (a.month = b.month) &&
      (decide (a.day < b.day) || (decide (a.day = b.day) &&
        (decide (a.hour < b.hour) || (decide (a.hour = b.hour) &&
          decide (a.minute < b.minute))))))))

/-- Non-strict chronological order on parsed datetimes. -/
def dtLe (a b : DT) : Bool :=
  decide (a.year < b.year) || (decide (a.year = b.year) &&
    (decide (a.month < b.month) || (decide (a.month = b.month) &&
      (decide (a.day < b.day) || (decide (a.day = b.day) &&
        (decide (a.hour < b.hour) || (decide (a.hour = b.hour) &&
          decide (a.minute ≤ b.minute))))))))

/-- Model of `datetime.strptime(s, "%Y-%m-%d %H:%M")`: run the compiled
directive parsers in sequence, require the whole input consumed, then apply
the `datetime` constructor's calendar validation (year at least 1, day not
exceeding the month length; the directive parsers already bound month,
hour and minute). -/
def strptimeYmdHM (s : String) : Option DT := do
  let (y, r1) ← parseYear4 s.data
  let r2 ← parseLit '-' r1
  let (mo, r3) ← parseMonth r2
  let r4 ← parseLit '-' r3
  let (d, r5) ← parseDay r4
  let r6 ← parseSpaces1 r5
  let (h, r7) ← parseHour r6
  let r8 ← parseLit ':' r7
  let (mi, r9) ← parseMinute r8
  if r9 = [] ∧ 1 ≤ y ∧ d ≤ daysInMonth y mo then
    some ⟨y, mo, d, h, mi⟩
  else
    none

/-- Value of a digit run, most significant first. -/
def digitsVal (l : List Char) : Nat := l.foldl (fun acc c => acc * 10 + digitVal c) 0

/-- An exact decimal number `num / 10 ^ exp`: the value a successful
`float(s)` call denotes, kept exact instead of rounded to binary floating
point so that order comparisons are about the written real numbers. -/
structure Dec where
  num : Int
  exp : Nat
deriving DecidableEq, Repr

/-- The rational number a `Dec` denotes. -/
def Dec.toRat (d : Dec) : ℚ := (d.num : ℚ) / (10 : ℚ) ^ d.exp

/-- Exact order on decimals by cross multiplication (denominators are
positive powers of ten). -/
def Dec.le (a b : Dec) : Bool :=
  decide (a.num * (10 : Int) ^ b.exp ≤ b.num * (10 : Int) ^ a.exp)

/-- Strict version of `Dec.le`. -/
def Dec.lt (a b : Dec) : Bool :=
  decide (a.num * (10 : Int) ^ b.exp < b.num * (10 : Int) ^ a.exp)

/-- Positivity of a decimal. -/
def Dec.pos (d : Dec) : Bool := decide (0 < d.num)

/-- Model of Python `float(s)` on ordinary decimal spellings, with the value
represented exactly: surrounding whitespace is stripped, then an optional
sign, an integer part and/or a fractional part (at least one digit between
them), and an optional exponent.  `inf`, `nan` and underscore digit
separators are outside the model. -/
def pyFloat (s : String) : Option Dec :=
  let t := pyStripL s.data
  let signed : Int × List Char :=
    match t with
    | '+' :: r => (1, r)
    | '-' :: r => (-1, r)
    | _ => (1, t)
  let sgn := signed.1
  let t1 := signed.2
  let ip := t1.takeWhile isAsciiDigit
  let t2 := t1.dropWhile isAsciiDigit
  let fracPart : List Char × List Char :=
    match t2 with
    | '.' :: r => (r.takeWhile isAsciiDigit, r.dropWhile isAsciiDigit)
    | _ => ([], t2)
  let fp := fracPart.1
  let t3 := fracPart.2
  if ip.length + fp.length = 0 then none
  else
    let mant : Dec := ⟨sgn * (digitsVal ip * 10 ^ fp.length + digitsVal fp : Nat), fp.length⟩
    match t3 with
    | [] => some mant
    | e :: r =>
      if e = 'e' || e = 'E' then
        let esigned : Bool × List Char :=
          match r with
          | '+' :: rr => (false, rr)
          | '-' :: rr => (true, rr)
          | _ => (false, r)
        let ed := esigned.2.takeWhile isAsciiDigit
        let r2 := esigned.2.dropWhile isAsciiDigit
        if ed.length = 0 ∨ r2 ≠ [] then none
        else if esigned.1 then some ⟨mant.num, mant.exp + digitsVal ed⟩
        else some ⟨mant.num * (10 : Int) ^ digitsVal ed, mant.exp⟩
      else none

/-- The validation body of `validate_record`, applied to the six destructured
fields.  Checks run in the source's order, each appending its reason to the
accumulated list. -/
def validateFields (flight_id origin destination dep_dt arr_dt price : String) :
    List String :=
  let errors : List String := []
  let errors := if reMatchAlnum28 flight_id then errors else errors ++ ["Invalid flight_id"]
  let errors := if reMatchUpper3 origin then errors else errors ++ ["Invalid origin"]
  let errors := if reMatchUpper3 destination then errors else errors ++ ["Invalid destination"]
  let dep_dt_obj := strptimeYmdHM dep_dt
  let errors := if dep_dt_obj.isSome then errors else errors ++ ["Invalid departure_datetime"]
  let arr_dt_obj := strptimeYmdHM arr_dt
  let errors := if arr_dt_obj.isSome then errors else errors ++ ["Invalid arrival_datetime"]
  let errors :=
    match dep_dt_obj, arr_dt_obj with
    | some dep, some arr => if dtLt dep arr then errors else errors ++ ["Arrival not after departure"]
    | _, _ => errors
  let errors :=
    match pyFloat price with
    | some v => if v.pos then errors else errors ++ ["Invalid price"]
    | none => errors ++ ["Invalid price"]
  errors

/-- Model of `validate_record(fields)`: destructuring `fields` into six
names raises unless the list has length six (modelled as `none`); otherwise
the checks run and the error list is returned. -/
def validate_record (fields : List String) : Option (List String) :=
  match fields with
  | [flight_id, origin, destination, dep_dt, arr_dt, price] =>
    some (validateFields flight_id origin destination dep_dt arr_dt price)
  | _ => none

/-- A flight record: the six validated fields, kept as their original text. -/
structure Flight where
  flight_id : String
  origin : String
  destination : String
  departure_datetime : String
  arrival_datetime : String
  price : String
deriving DecidableEq, Repr

/-- An error entry: line number, original line text, explanation. -/
abbrev ErrEntry := Nat × String × String

/-- Model of Python `s.split(",")` on the characters: splitting at every
comma, keeping empty groups (`"".split(",")` is `[""]`). -/
def splitComma : List Char → List (List Char)
  | [] => [[]]
  | c :: rest =>
    if c = ',' then [] :: splitComma rest
    else
      match splitComma rest with
      | g :: gs => (c :: g) :: gs
      | [] => [[c]]

/-- Model of `line.split(",")` on strings. -/
def pySplitComma (s : String) : List String := (splitComma s.data).map String.mk

/-- Model of `s.startswith("#")`. -/
def startsWithHash (s : String) : Bool :=
  match s.data with
  | '#' :: _ => true
  | _ => false

/-- Loop body of `parse_csv_file`: walks the lines carrying the line
counter and the two accumulator lists, appending like the source's
`valid.append` / `errors.append`. -/
def parseCsvGo : List String → Nat → List Flight → List ErrEntry →
    List Flight × List ErrEntry × Nat
  | [], ln, valid, errors => (valid, errors, ln)
  | line :: rest, ln, valid, errors =>
    let stripped := pyStrip line
    if stripped = "" then
      parseCsvGo rest (ln + 1) valid errors
    else if startsWithHash stripped then
      parseCsvGo rest (ln + 1) valid (errors ++ [(ln, line, "Comment")])
    else
      match (pySplitComma line).map pyStrip with
      | [a, b, c, d, e, f] =>
        let issues := validateFields a b c d e f
        if issues.isEmpty then
          parseCsvGo rest (ln + 1) (valid ++ [⟨a, b, c, d, e, f⟩]) errors
        else
          parseCsvGo rest (ln + 1) valid (errors ++ [(ln, line, String.intercalate ", " issues)])
      | _ =>
        parseCsvGo rest (ln + 1) valid (errors ++ [(ln, line, "Invalid number of fields")])

/-- Model of `parse_csv_file`: the file is its list of lines (each line as
iterated by Python, with the trailing newline already removed by
`rstrip("\n")`).  Returns `(valid_flights, errors, next_line_no)`. -/
def parse_csv_file (lines : List String) (start_line_no : Nat) :
    List Flight × List ErrEntry × Nat :=
  parseCsvGo lines start_line_no [] []

/-- A record as the query evaluator sees it: a JSON object that may lack
any of the six fields (`f.get(key)` then yields `None`). -/
structure PFlight where
  flight_id : Option String
  origin : Option String
  destination : Option String
  departure_datetime : Option String
  arrival_datetime : Option String
  price : Option String
deriving DecidableEq, Repr

/-- View a parsed flight record as a full JSON object. -/
def Flight.toPartial (f : Flight) : PFlight :=
  ⟨some f.flight_id, some f.origin, some f.destination,
   some f.departure_datetime, some f.arrival_datetime, some f.price⟩

/-- A query: every filter key is optional. -/
structure Query where
  flight_id : Option String
  origin : Option String
  destination : Option String
  price : Option String
  departure_datetime : Option String
  arrival_datetime : Option String
deriving DecidableEq, Repr

/-- The query with no keys. -/
def emptyQuery : Query := ⟨none, none, none, none, none, none⟩

/-- Python string `<`: lexicographic by code point. -/
def strLtL : List Char → List Char → Bool
  | _, [] => false
  | [], _ :: _ => true
  | a :: as, b :: bs => decide (a.toNat < b.toNat) || (a == b && strLtL as bs)

/-- Python string `<=`: lexicographic by code point. -/
def strLeL : List Char → List Char → Bool
  | [], _ => true
  | _ :: _, [] => false
  | a :: as, b :: bs => decide (a.toNat < b.toNat) || (a == b && strLeL as bs)

def strLt (s t : String) : Bool := strLtL s.data t.data

def strLe (s t : String) : Bool := strLeL s.data t.data

/-- The `price` block of `flight_matches_query`: with `"price" in q`,
`float(q["price"])` is computed first, then `float(f.get("price", "0"))`;
either conversion failing lands in the `except` arm, which returns False.
The result is `true` when the block falls through (no `return False`). -/
def priceOk (f : PFlight) (q : Query) : Bool :=
  match q.price with
  | none => true
  | some qs =>
    match pyFloat qs with
    | none => false
    | some qprice =>
      match pyFloat (f.price.getD "0") with
      | none => false
      | some fprice => !(Dec.lt qprice fprice)

/-- Model of `flight_matches_query(f, q)`.  The exact-match loop compares
`f.get(key) != q[key]` (a missing field compares unequal to any string);
the datetime blocks compare `f.get(key) < q[key]` and `f.get(key) > q[key]`
with plain string comparison, which raise `TypeError` when the field is
missing (`None` is not ordered against `str`) — modelled as `none`. -/
def flight_matches_query (f : PFlight) (q : Query) : Option Bool :=
  if q.flight_id.isSome && f.flight_id != q.flight_id then some false
  else if q.origin.isSome && f.origin != q.origin then some false
  else if q.destination.isSome && f.destination != q.destination then some false
  else if !priceOk f q then some false
  else
    match q.departure_datetime with
    | some qd =>
      match f.departure_datetime with
      | none => none
      | some rd =>
        if strLt rd qd then some false
        else
          match q.arrival_datetime with
          | some qa =>
            match f.arrival_datetime with
            | none => none
            | some ra => if strLt qa ra then some false else some true
          | none => some true
    | none =>
      match q.arrival_datetime with
      | some qa =>
        match f.arrival_datetime with
        | none => none
        | some ra => if strLt qa ra then some false else some true
      | none => some true

/-- Lowercase hexadecimal digit, as `json.dump` emits in `\uXXXX` escapes. -/
def hexDigit (n : Nat) : Char :=
  match n with
  | 0 => '0' | 1 => '1' | 2 => '2' | 3 => '3' | 4 => '4'
  | 5 => '5' | 6 => '6' | 7 => '7' | 8 => '8' | 9 => '9'
  | 10 => 'a' | 11 => 'b' | 12 => 'c' | 13 => 'd' | 14 => 'e' | 15 => 'f'
  | _ => '*'

/-- Four lowercase hex digits of a code unit. -/
def hex4 (n : Nat) : List Char :=
  [hexDigit (n / 4096 % 16), hexDigit (n / 256 % 16), hexDigit (n / 16 % 16), hexDigit (n % 16)]

/-- How `json.dump` (default `ensure_ascii=True`) writes one character of a
string value: the two-character escapes for quote, backslash and the named
control characters, `\u00XX` for other control characters, the character
itself for printable ASCII, and `\uXXXX` (a surrogate pair beyond the BMP)
for non-ASCII. -/
def jsonEscapeChar (c : Char) : List Char :=
  if c = '"' then ['\\', '"']
  else if c = '\\' then ['\\', '\\']
  else if c = '\n' then ['\\', 'n']
  else if c = '\t' then ['\\', 't']
  else if c = '\r' then ['\\', 'r']
  else if c = '\x08' then ['\\', 'b']
  else if c = '\x0c' then ['\\', 'f']
  else if c.toNat < 32 then '\\' :: 'u' :: hex4 c.toNat
  else if c.toNat < 128 then [c]
  else if c.toNat ≤ 0xFFFF then '\\' :: 'u' :: hex4 c.toNat
  else
    '\\' :: 'u' :: hex4 (0xD800 + (c.toNat - 0x10000) / 0x400) ++
      ('\\' :: 'u' :: hex4 (0xDC00 + (c.toNat - 0x10000) % 0x400))

/-- Escape a whole string value. -/
def jsonEscape : List Char → List Char
  | [] => []
  | c :: cs => jsonEscapeChar c ++ jsonEscape cs

/-- A JSON string literal: quote, escaped content, quote. -/
def quoteStr (s : String) : List Char := '"' :: (jsonEscape s.data ++ ['"'])

/-- The six fields of a record with their JSON keys, in the alphabetical
order `sort_keys=True` produces. -/
def flightPairs (f : Flight) : List (String × String) :=
  [("arrival_datetime", f.arrival_datetime),
   ("departure_datetime", f.departure_datetime),
   ("destination", f.destination),
   ("flight_id", f.flight_id),
   ("origin", f.origin),
   ("price", f.price)]

/-- Join rendered chunks with a separator (`json.dump`'s item separator is
`","` followed by a newline and the indentation when `indent=2`). -/
def sepByL (sep : List Char) : List (List Char) → List Char
  | [] => []
  | [x] => x
  | x :: xs => x ++ sep ++ sepByL sep xs

/-- One `"key": "value"` member line at object indentation (four spaces). -/
def renderPair (kv : String × String) : List Char :=
  ' ' :: ' ' :: ' ' :: ' ' :: (quoteStr kv.1 ++ ':' :: ' ' :: quoteStr kv.2)

/-- One record object as `json.dump(..., indent=2, sort_keys=True)` lays it
out inside the top-level array. -/
def renderFlight (f : Flight) : List Char :=
  ' ' :: ' ' :: '{' :: '\n' :: (sepByL [',', '\n'] ((flightPairs f).map renderPair) ++
    ['\n', ' ', ' ', '}'])

/-- The exact character stream `write_db_json` puts in the database file:
`json.dump(flights, fh, indent=2, sort_keys=True)`. -/
def writeDbL (flights : List Flight) : List Char :=
  match flights with
  | [] => ['[', ']']
  | _ => '[' :: '\n' :: (sepByL [',', '\n'] (flights.map renderFlight) ++ ['\n', ']'])

/-- Model of `write_db_json`: the database file's full content. -/
def write_db_json (flights : List Flight) : String := ⟨writeDbL flights⟩

/-- JSON inter-token whitespace accepted by `json.load`. -/
def jsonWs (c : Char) : Bool := c = ' ' || c = '\t' || c = '\n' || c = '\r'

/-- Skip inter-token whitespace. -/
def skipWs : List Char → List Char
  | [] => []
  | c :: cs => if jsonWs c then skipWs cs else c :: cs

/-- Expect a fixed token and return what follows it. -/
def expectChars : List Char → List Char → Option (List Char)
  | [], l => some l
  | c :: cs, x :: xs => if x = c then expectChars cs xs else none
  | _ :: _, [] => none

/-- Value of one hexadecimal digit (`json.load` accepts both cases). -/
def hexVal (c : Char) : Option Nat :=
  if '0' ≤ c && c ≤ '9' then some (c.toNat - 48)
  else if 'a' ≤ c && c ≤ 'f' then some (c.toNat - 87)
  else if 'A' ≤ c && c ≤ 'F' then some (c.toNat - 55)
  else none

/-- Value of a `\uXXXX` escape's four hex digits. -/
def hex4Val (a b c d : Char) : Option Nat :=
  match hexVal a, hexVal b, hexVal c, hexVal d with
  | some x, some y, some z, some w => some (((x * 16 + y) * 16 + z) * 16 + w)
  | _, _, _, _ => none

/-- The character a two-character escape `\e` denotes, when legal. -/
def jsonUnescChar (e : Char) : Option Char :=
  if e = '"' then some '"'
  else if e = '\\' then some '\\'
  else if e = '/' then some '/'
  else if e = 'n' then some '\n'
  else if e = 't' then some '\t'
  else if e = 'r' then some '\r'
  else if e = 'b' then some '\x08'
  else if e = 'f' then some '\x0c'
  else none

/-- One unit of a JSON string body, as `json.load` decodes it in strict
mode: `none` for the closing quote, otherwise the decoded character (named
escapes, `\uXXXX` with surrogate pairs combined — lone surrogates are
outside the model — or a plain character, raw control characters
rejected), with the remaining input. -/
def jsonStrStep : List Char → Option (Option Char × List Char)
  | [] => none
  | c :: rest =>
    if c = '"' then some (none, rest)
    else if c = '\\' then
      match rest with
      | [] => none
      | e :: rest2 =>
        if e = 'u' then
          match rest2 with
          | a1 :: a2 :: a3 :: a4 :: rest3 =>
            match hex4Val a1 a2 a3 a4 with
            | none => none
            | some v =>
              if 0xD800 ≤ v ∧ v < 0xDC00 then
                match rest3 with
                | b0 :: b1 :: c1 :: c2 :: c3 :: c4 :: rest4 =>
                  if b0 = '\\' ∧ b1 = 'u' then
                    match hex4Val c1 c2 c3 c4 with
                    | some w =>
                      if 0xDC00 ≤ w ∧ w < 0xE000 then
                        some (some (Char.ofNat (0x10000 + (v - 0xD800) * 0x400 + (w - 0xDC00))),
                          rest4)
                      else none
                    | none => none
                  else none
                | _ => none
              else some (some (Char.ofNat v), rest3)
          | _ => none
        else
          match jsonUnescChar e with
          | some u => some (some u, rest2)
          | none => none
    else if c.toNat < 32 then none
    else some (some c, rest)

/-- Scan a whole string body by iterating `jsonStrStep`; the fuel bounds
the number of decoded characters (every step consumes at least one input
character, so the input length suffices). -/
def parseJStrF : Nat → List Char → Option (List Char × List Char)
  | 0, _ => none
  | fuel + 1, l =>
    match jsonStrStep l with
    | none => none
    | some (none, rest) => some ([], rest)
    | some (some c, rest) => (parseJStrF fuel rest).map (fun p => (c :: p.1, p.2))

/-- Scan of a JSON string body after the opening quote: the decoded
content and the input after the closing quote. -/
def parseJStr (l : List Char) : Option (List Char × List Char) :=
  parseJStrF (l.length + 1) l

/-- Parse `"key": "value"` (with surrounding whitespace) for a fixed
expected key; returns the decoded value and the rest of the input. -/
def parseField (key : String) (l : List Char) : Option (List Char × List Char) := do
  let l1 ← expectChars ('"' :: (key.data ++ ['"'])) (skipWs l)
  let l2 ← expectChars [':'] (skipWs l1)
  let l3 ← expectChars ['"'] (skipWs l2)
  parseJStr l3

/-- Parse one record object.  The database artifact always carries exactly
the six keys in alphabetical order, so the model of `json.load` is
restricted to objects of that shape. -/
def parseObj (l : List Char) : Option (Flight × List Char) := do
  let l1 ← expectChars ['{'] (skipWs l)
  let (ad, l2) ← parseField "arrival_datetime" l1
  let l2b ← expectChars [','] (skipWs l2)
  let (dd, l3) ← parseField "departure_datetime" l2b
  let l3b ← expectChars [','] (skipWs l3)
  let (ds, l4) ← parseField "destination" l3b
  let l4b ← expectChars [','] (skipWs l4)
  let (fi, l5) ← parseField "flight_id" l4b
  let l5b ← expectChars [','] (skipWs l5)
  let (og, l6) ← parseField "origin" l5b
  let l6b ← expectChars [','] (skipWs l6)
  let (pr, l7) ← parseField "price" l6b
  let l8 ← expectChars ['}'] (skipWs l7)
  some (⟨⟨fi⟩, ⟨og⟩, ⟨ds⟩, ⟨dd⟩, ⟨ad⟩, ⟨pr⟩⟩, l8)

/-- Parse the comma-separated objects of a non-empty array, with fuel
bounding the number of items. -/
def parseItems : Nat → List Char → Option (List Flight × List Char)
  | 0, _ => none
  | fuel + 1, l => do
    let (f, l1) ← parseObj l
    match skipWs l1 with
    | ',' :: l2 => do
      let (fs, l3) ← parseItems fuel l2
      some (f :: fs, l3)
    | l2 => do
      let l3 ← expectChars [']'] l2
      some ([f], l3)

/-- Parse a whole database document: a JSON array of record objects, with
nothing but whitespace after it. -/
def parseDb (l : List Char) : Option (List Flight) := do
  let l1 ← expectChars ['['] (skipWs l)
  match skipWs l1 with
  | ']' :: l2 => if skipWs l2 = [] then some [] else none
  | l2 => do
    let (fs, l3) ← parseItems (l.length + 1) l2
    if skipWs l3 = [] then some fs else none

/-- Model of `load_db_json`: parse the file content; any shape other than a
list (or malformed JSON) raises, modelled as `none`. -/
def load_db_json (s : String) : Option (List Flight) := parseDb s.data

/-- The ASCII digit character of a value below ten. -/
def digitChar (n : Nat) : Char :=
  match n with
  | 0 => '0' | 1 => '1' | 2 => '2' | 3 => '3' | 4 => '4'
  | 5 => '5' | 6 => '6' | 7 => '7' | 8 => '8' | 9 => '9'
  | _ => '*'

/-- Two-digit zero-padded rendering. -/
def pad2 (n : Nat) : List Char := [digitChar (n / 10 % 10), digitChar (n % 10)]

/-- Four-digit zero-padded rendering. -/
def pad4 (n : Nat) : List Char :=
  [digitChar (n / 1000 % 10), digitChar (n / 100 % 10), digitChar (n / 10 % 10),
   digitChar (n % 10)]

/-- The canonical zero-padded spelling `YYYY-MM-DD HH:MM` of a datetime. -/
def renderDT (y mo d h mi : Nat) : String :=
  ⟨pad4 y ++ '-' :: (pad2 mo ++ '-' :: (pad2 d ++ ' ' :: (pad2 h ++ ':' :: pad2 mi)))⟩

/-- The specification's reading of the validator's datetime rule: a string
is accepted exactly when it is a 16-character `YYYY-MM-DD HH:MM` spelling
with a 4-digit year and 2-digit month, day, hour and minute denoting a
valid calendar date-time. -/
def canonicalDT (s : String) : Bool :=
  match s.data with
  | [y1, y2, y3, y4, '-', m1, m2, '-', d1, d2, ' ', h1, h2, ':', n1, n2] =>
    ([y1, y2, y3, y4, m1, m2, d1, d2, h1, h2, n1, n2].all isAsciiDigit) &&
    (let y := ((digitVal y1 * 10 + digitVal y2) * 10 + digitVal y3) * 10 + digitVal y4
     let mo := digitVal m1 * 10 + digitVal m2
     let d := digitVal d1 * 10 + digitVal d2
     let h := digitVal h1 * 10 + digitVal h2
     let mi := digitVal n1 * 10 + digitVal n2
     decide (1 ≤ y) && decide (1 ≤ mo) && decide (mo ≤ 12) && decide (1 ≤ d) &&
       decide (d ≤ daysInMonth y mo) && decide (h ≤ 23) && decide (mi ≤ 59))
  | _ => false

/-- The query contract as the specification words it: a record matches iff
every present key's predicate holds — exact equality for `flight_id`,
`origin` and `destination`; parsed price of the record at most the parsed
price of the query (failure to parse the query's price fails the
predicate); record departure lexicographically at least the query value;
record arrival lexicographically at most the query value. -/
def matchesSpec (f : Flight) (q : Query) : Bool :=
  (match q.flight_id with | none => true | some v => f.flight_id == v) &&
  (match q.origin with | none => true | some v => f.origin == v) &&
  (match q.destination with | none => true | some v => f.destination == v) &&
  (match q.price with
   | none => true
   | some v =>
     match pyFloat f.price, pyFloat v with
     | some rv, some qv => Dec.le rv qv
     | _, _ => false) &&
  (match q.departure_datetime with | none => true | some v => strLe v f.departure_datetime) &&
  (match q.arrival_datetime with | none => true | some v => strLe f.arrival_datetime v)

/-- The Line Parser as the specification words it: a structural recursion
over the lines, one state per line, classifying each as blank (skipped,
counter still advances), comment (an Error Entry with reason "Comment"),
wrong field count (an Error Entry with reason "Invalid number of fields"),
or a candidate record handed to the Record Validator, emitting a Flight
Record on zero violations and otherwise an Error Entry whose reason joins
the violations with ", ". -/
def parseCsvRec : List String → Nat → List Flight × List ErrEntry × Nat
  | [], ln => ([], [], ln)
  | l :: rest, ln =>
    let tail := parseCsvRec rest (ln + 1)
    if pyStrip l = "" then tail
    else if startsWithHash (pyStrip l) then
      (tail.1, (ln, l, "Comment") :: tail.2.1, tail.2.2)
    else
      match (pySplitComma l).map pyStrip with
      | [a, b, c, d, e, f] =>
        if (validateFields a b c d e f).isEmpty then
          (⟨a, b, c, d, e, f⟩ :: tail.1, tail.2.1, tail.2.2)
        else
          (tail.1, (ln, l, String.intercalate ", " (validateFields a b c d e f)) :: tail.2.1,
           tail.2.2)
      | _ => (tail.1, (ln, l, "Invalid number of fields") :: tail.2.1, tail.2.2)

def asciiString (s : String) : Bool := s.data.all (fun c => decide (c.toNat < 128))

/-- All six fields within the ASCII range (`ensure_ascii` escapes beyond
it with surrogate pairs, which the model does not round-trip). -/
def asciiFlight (f : Flight) : Bool :=
  asciiString f.flight_id && asciiString f.origin && asciiString f.destination &&
    asciiString f.departure_datetime && asciiString f.arrival_datetime && asciiString f.price

/-! ## Helper lemmas -/

/-! ## Sanity examples -/

example : validate_record ["AB12", "JFK", "LAX", "2025-12-01 09:00", "2025-12-01 12:00", "199.99"] =
    some [] := by decide

example : validate_record ["A!", "jkf", "LAX", "2025-12-01 09:00", "2025-12-01 12:00", "199.99"] =
    some ["Invalid flight_id", "Invalid origin"] := by decide

example :
    parse_csv_file ["# note", "", "AB12,JFK,LAX,2025-12-01 09:00,2025-12-01 12:00,199.99"] 1 =
      ([⟨"AB12", "JFK", "LAX", "2025-12-01 09:00", "2025-12-01 12:00", "199.99"⟩],
       [(1, "# note", "Comment")], 4) := by decide

example :
    flight_matches_query
      (Flight.toPartial ⟨"AB12", "JFK", "LAX", "2025-12-01 09:00", "2025-12-01 12:00", "199.99"⟩)
      { emptyQuery with origin := some "JFK", price := some "200" } = some true := by decide

example :
    flight_matches_query
      (Flight.toPartial ⟨"AB12", "JFK", "LAX", "2025-12-01 09:00", "2025-12-01 12:00", "250.00"⟩)
      { emptyQuery with price := some "200" } = some false := by decide

example :
    load_db_json (write_db_json
      [⟨"AB12", "JFK", "LAX", "2025-12-01 09:00", "2025-12-01 12:00", "199.99"⟩,
       ⟨"CD3", "RIX", "HEL", "2025-11-05 08:30", "2025-11-05 10:00", "89.50"⟩]) =
    some
      [⟨"AB12", "JFK", "LAX", "2025-12-01 09:00", "2025-12-01 12:00", "199.99"⟩,
       ⟨"CD3", "RIX", "HEL", "2025-11-05 08:30", "2025-11-05 10:00", "89.50"⟩] := by decide

example : load_db_json (write_db_json []) = some [] := by decide


theorem char_eq_of_toNat_eq {a b : Char} (h : a.toNat = b.toNat) : a = b :=
  Char.eq_of_val_eq (UInt32.ext h)

theorem readDigit_digitChar (k : Nat) (hk : k < 10) :
    readDigit (digitChar k) = some k := by
  interval_cases k <;> rfl

theorem digitChar_toNat (k : Nat) (hk : k < 10) : (digitChar k).toNat = 48 + k := by
  interval_cases k <;> rfl

theorem digitChar_not_space (k : Nat) (hk : k < 10) : pyIsSpace (digitChar k) = false := by
  interval_cases k <;> rfl

theorem digitChar_digitVal (c : Char) (hc : isAsciiDigit c = true) :
    digitChar (digitVal c) = c := by
  have hb : 48 ≤ c.toNat ∧ c.toNat ≤ 57 := by
    simp only [isAsciiDigit, Bool.and_eq_true, decide_eq_true_eq] at hc
    exact ⟨hc.1, hc.2⟩
  have hv : digitVal c = c.toNat - 48 := rfl
  apply char_eq_of_toNat_eq
  rw [digitChar_toNat (digitVal c) (by omega)]
  omega

theorem parseYear4_pad (y : Nat) (hy : y ≤ 9999) (r : List Char) :
    parseYear4 (pad4 y ++ r) = some (y, r) := by
  simp only [pad4, List.cons_append, List.nil_append, parseYear4,
    readDigit_digitChar _ (Nat.mod_lt _ (by omega)),
    readDigit_digitChar (y / 1000 % 10) (Nat.mod_lt _ (by omega))]
  congr 1
  congr 1
  omega

theorem parseMonth_pad (mo : Nat) (h1 : 1 ≤ mo) (h2 : mo ≤ 12) (r : List Char) :
    parseMonth (pad2 mo ++ r) = some (mo, r) := by
  interval_cases mo <;> rfl

theorem parseDay_pad (d : Nat) (h1 : 1 ≤ d) (h2 : d ≤ 31) (r : List Char) :
    parseDay (pad2 d ++ r) = some (d, r) := by
  interval_cases d <;> rfl

theorem parseHour_pad (h : Nat) (h2 : h ≤ 23) (r : List Char) :
    parseHour (pad2 h ++ r) = some (h, r) := by
  interval_cases h <;> rfl

theorem parseMinute_pad (mi : Nat) (h2 : mi ≤ 59) (r : List Char) :
    parseMinute (pad2 mi ++ r) = some (mi, r) := by
  interval_cases mi <;> rfl

theorem daysInMonth_le_31 (y mo : Nat) : daysInMonth y mo ≤ 31 := by
  rw [daysInMonth]
  split
  · split <;> omega
  · split <;> omega

theorem parseMinute_pad_nil (mi : Nat) (h2 : mi ≤ 59) :
    parseMinute (pad2 mi) = some (mi, []) := by
  have h := parseMinute_pad mi h2 []
  simpa using h

/-- Canonical zero-padded spellings parse to exactly their components. -/
theorem strptime_render (y mo d h mi : Nat) (hy1 : 1 ≤ y) (hy2 : y ≤ 9999)
    (hmo1 : 1 ≤ mo) (hmo2 : mo ≤ 12) (hd1 : 1 ≤ d) (hd2 : d ≤ daysInMonth y mo)
    (hh : h ≤ 23) (hmi : mi ≤ 59) :
    strptimeYmdHM (renderDT y mo d h mi) = some ⟨y, mo, d, h, mi⟩ := by
  have hd31 : d ≤ 31 := le_trans hd2 (daysInMonth_le_31 y mo)
  simp only [strptimeYmdHM]
  rw [show (renderDT y mo d h mi).data =
      pad4 y ++ '-' :: (pad2 mo ++ '-' :: (pad2 d ++ ' ' :: (pad2 h ++ ':' :: pad2 mi)))
    from rfl]
  rw [parseYear4_pad y hy2]
  simp only [Option.bind_eq_bind, Option.some_bind]
  rw [show parseLit '-' ('-' :: (pad2 mo ++ '-' :: (pad2 d ++ ' ' :: (pad2 h ++ ':' :: pad2 mi)))) =
      some (pad2 mo ++ '-' :: (pad2 d ++ ' ' :: (pad2 h ++ ':' :: pad2 mi))) from rfl]
  simp only [Option.some_bind]
  rw [parseMonth_pad mo hmo1 hmo2]
  simp only [Option.some_bind]
  rw [show parseLit '-' ('-' :: (pad2 d ++ ' ' :: (pad2 h ++ ':' :: pad2 mi))) =
      some (pad2 d ++ ' ' :: (pad2 h ++ ':' :: pad2 mi)) from rfl]
  simp only [Option.some_bind]
  rw [parseDay_pad d hd1 hd31]
  simp only [Option.some_bind]
  rw [show parseSpaces1 (' ' :: (pad2 h ++ ':' :: pad2 mi)) =
      some ((pad2 h ++ ':' :: pad2 mi).dropWhile pyIsSpace) from rfl]
  rw [show (pad2 h ++ ':' :: pad2 mi).dropWhile pyIsSpace = pad2 h ++ ':' :: pad2 mi from by
    simp [pad2, List.dropWhile, digitChar_not_space (h / 10 % 10) (Nat.mod_lt _ (by omega))]]
  simp only [Option.some_bind]
  rw [parseHour_pad h hh]
  simp only [Option.some_bind]
  rw [show parseLit ':' (':' :: pad2 mi) = some (pad2 mi) from rfl]
  simp only [Option.some_bind]
  rw [parseMinute_pad_nil mi hmi]
  simp only [Option.some_bind]
  rw [if_pos ⟨trivial, hy1, hd2⟩]


theorem digitVal_lt (c : Char) (hc : isAsciiDigit c = true) : digitVal c < 10 := by
  simp only [isAsciiDigit, Bool.and_eq_true, decide_eq_true_eq] at hc
  have h1 : (48 : Nat) ≤ c.toNat := hc.1
  have h2 : c.toNat ≤ 57 := hc.2
  simp only [digitVal]
  omega

/-- Every string the specification's 2-digit format predicate accepts is a
canonical zero-padded rendering of in-range components. -/
theorem canonical_eq_render (s : String) (hs : canonicalDT s = true) :
    ∃ y mo d h mi, 1 ≤ y ∧ y ≤ 9999 ∧ 1 ≤ mo ∧ mo ≤ 12 ∧ 1 ≤ d ∧
      d ≤ daysInMonth y mo ∧ h ≤ 23 ∧ mi ≤ 59 ∧ s = renderDT y mo d h mi := by
  unfold canonicalDT at hs
  split at hs
  case h_2 => exact absurd hs (by simp)
  case h_1 y1 y2 y3 y4 m1 m2 d1 d2 h1 h2 n1 n2 heq =>
    simp only [List.all_cons, List.all_nil, Bool.and_eq_true, decide_eq_true_eq,
      Bool.and_true] at hs
    obtain ⟨⟨hy1d, hy2d, hy3d, hy4d, hm1d, hm2d, hd1d, hd2d, hh1d, hh2d, hn1d, hn2d⟩,
      hrest⟩ := hs
    obtain ⟨⟨⟨⟨⟨⟨hy1, hmo1⟩, hmo2⟩, hd1⟩, hdm⟩, hh⟩, hmi⟩ := hrest
    have by1 := digitVal_lt y1 hy1d
    have by2 := digitVal_lt y2 hy2d
    have by3 := digitVal_lt y3 hy3d
    have by4 := digitVal_lt y4 hy4d
    have bm1 := digitVal_lt m1 hm1d
    have bm2 := digitVal_lt m2 hm2d
    have bd1 := digitVal_lt d1 hd1d
    have bd2 := digitVal_lt d2 hd2d
    have bh1 := digitVal_lt h1 hh1d
    have bh2 := digitVal_lt h2 hh2d
    have bn1 := digitVal_lt n1 hn1d
    have bn2 := digitVal_lt n2 hn2d
    refine ⟨((digitVal y1 * 10 + digitVal y2) * 10 + digitVal y3) * 10 + digitVal y4,
      digitVal m1 * 10 + digitVal m2, digitVal d1 * 10 + digitVal d2,
      digitVal h1 * 10 + digitVal h2, digitVal n1 * 10 + digitVal n2,
      hy1, by omega, hmo1, hmo2, hd1, hdm, hh, hmi, ?_⟩
    have e1 : digitChar ((((digitVal y1 * 10 + digitVal y2) * 10 + digitVal y3) * 10 +
        digitVal y4) / 1000 % 10) = y1 := by
      rw [show (((digitVal y1 * 10 + digitVal y2) * 10 + digitVal y3) * 10 +
        digitVal y4) / 1000 % 10 = digitVal y1 from by omega]
      exact digitChar_digitVal y1 hy1d
    have e2 : digitChar ((((digitVal y1 * 10 + digitVal y2) * 10 + digitVal y3) * 10 +
        digitVal y4) / 100 % 10) = y2 := by
      rw [show (((digitVal y1 * 10 + digitVal y2) * 10 + digitVal y3) * 10 +
        digitVal y4) / 100 % 10 = digitVal y2 from by omega]
      exact digitChar_digitVal y2 hy2d
    have e3 : digitChar ((((digitVal y1 * 10 + digitVal y2) * 10 + digitVal y3) * 10 +
        digitVal y4) / 10 % 10) = y3 := by
      rw [show (((digitVal y1 * 10 + digitVal y2) * 10 + digitVal y3) * 10 +
        digitVal y4) / 10 % 10 = digitVal y3 from by omega]
      exact digitChar_digitVal y3 hy3d
    have e4 : digitChar ((((digitVal y1 * 10 + digitVal y2) * 10 + digitVal y3) * 10 +
        digitVal y4) % 10) = y4 := by
      rw [show (((digitVal y1 * 10 + digitVal y2) * 10 + digitVal y3) * 10 +
        digitVal y4) % 10 = digitVal y4 from by omega]
      exact digitChar_digitVal y4 hy4d
    have em1 : digitChar ((digitVal m1 * 10 + digitVal m2) / 10 % 10) = m1 := by
      rw [show (digitVal m1 * 10 + digitVal m2) / 10 % 10 = digitVal m1 from by omega]
      exact digitChar_digitVal m1 hm1d
    have em2 : digitChar ((digitVal m1 * 10 + digitVal m2) % 10) = m2 := by
      rw [show (digitVal m1 * 10 + digitVal m2) % 10 = digitVal m2 from by omega]
      exact digitChar_digitVal m2 hm2d
    have ed1 : digitChar ((digitVal d1 * 10 + digitVal d2) / 10 % 10) = d1 := by
      rw [show (digitVal d1 * 10 + digitVal d2) / 10 % 10 = digitVal d1 from by omega]
      exact digitChar_digitVal d1 hd1d
    have ed2 : digitChar ((digitVal d1 * 10 + digitVal d2) % 10) = d2 := by
      rw [show (digitVal d1 * 10 + digitVal d2) % 10 = digitVal d2 from by omega]
      exact digitChar_digitVal d2 hd2d
    have eh1 : digitChar ((digitVal h1 * 10 + digitVal h2) / 10 % 10) = h1 := by
      rw [show (digitVal h1 * 10 + digitVal h2) / 10 % 10 = digitVal h1 from by omega]
      exact digitChar_digitVal h1 hh1d
    have eh2 : digitChar ((digitVal h1 * 10 + digitVal h2) % 10) = h2 := by
      rw [show (digitVal h1 * 10 + digitVal h2) % 10 = digitVal h2 from by omega]
      exact digitChar_digitVal h2 hh2d
    have en1 : digitChar ((digitVal n1 * 10 + digitVal n2) / 10 % 10) = n1 := by
      rw [show (digitVal n1 * 10 + digitVal n2) / 10 % 10 = digitVal n1 from by omega]
      exact digitChar_digitVal n1 hn1d
    have en2 : digitChar ((digitVal n1 * 10 + digitVal n2) % 10) = n2 := by
      rw [show (digitVal n1 * 10 + digitVal n2) % 10 = digitVal n2 from by omega]
      exact digitChar_digitVal n2 hn2d
    rcases s with ⟨data⟩
    simp only [] at heq
    subst heq
    show String.mk _ = String.mk _
    congr 1
    simp [renderDT, pad4, pad2, e1, e2, e3, e4, em1, em2, ed1, ed2, eh1, eh2, en1, en2]

theorem append_reason (b : Bool) (acc l : List String) :
    (if b then acc else acc ++ l) = acc ++ (if b then [] else l) := by
  cases b <;> simp

theorem append_reason_dt (o1 o2 : Option DT) (acc : List String) :
    (match o1, o2 with
     | some dep, some arr =>
       if dtLt dep arr then acc else acc ++ ["Arrival not after departure"]
     | _, _ => acc) =
    acc ++ (match o1, o2 with
     | some dep, some arr => if dtLt dep arr then [] else ["Arrival not after departure"]
     | _, _ => []) := by
  cases o1 <;> cases o2 <;> simp [append_reason]

theorem append_reason_price (op : Option Dec) (acc : List String) :
    (match op with
     | some v => if v.pos then acc else acc ++ ["Invalid price"]
     | none => acc ++ ["Invalid price"]) =
    acc ++ (match op with
     | some v => if v.pos then [] else ["Invalid price"]
     | none => ["Invalid price"]) := by
  cases op <;> simp [append_reason]

/-- The reason blocks of `validateFields`, in evaluation order. -/
theorem validateFields_eq (i o d dd ad p : String) :
    validateFields i o d dd ad p =
      (if reMatchAlnum28 i then [] else ["Invalid flight_id"]) ++
      (if reMatchUpper3 o then [] else ["Invalid origin"]) ++
      (if reMatchUpper3 d then [] else ["Invalid destination"]) ++
      (if (strptimeYmdHM dd).isSome then [] else ["Invalid departure_datetime"]) ++
      (if (strptimeYmdHM ad).isSome then [] else ["Invalid arrival_datetime"]) ++
      (match strptimeYmdHM dd, strptimeYmdHM ad with
       | some dep, some arr => if dtLt dep arr then [] else ["Arrival not after departure"]
       | _, _ => []) ++
      (match pyFloat p with
       | some v => if v.pos then [] else ["Invalid price"]
       | none => ["Invalid price"]) := by
  cases hdep : strptimeYmdHM dd <;> cases harr : strptimeYmdHM ad <;>
    cases hp : pyFloat p <;>
      (simp only [validateFields, hdep, harr, hp, append_reason, List.nil_append];
       try simp [List.append_assoc])

theorem mem_ite_nil_single (a s : String) (b : Bool) :
    a ∈ (if b then ([] : List String) else [s]) ↔ (b = false ∧ a = s) := by
  cases b <;> simp

theorem dtLe_iff_not_lt (a b : DT) : dtLe a b = true ↔ ¬ dtLt b a = true := by
  rcases a with ⟨y1, m1, d1, h1, n1⟩
  rcases b with ⟨y2, m2, d2, h2, n2⟩
  simp only [dtLe, dtLt, Bool.or_eq_true, Bool.and_eq_true, decide_eq_true_eq]
  omega

theorem strLeL_iff_not_lt (a b : List Char) : strLeL a b = true ↔ ¬ strLtL b a = true := by
  induction a generalizing b with
  | nil => cases b <;> simp [strLeL, strLtL]
  | cons x xs ih =>
    cases b with
    | nil => simp [strLeL, strLtL]
    | cons y ys =>
      simp only [strLeL, strLtL, Bool.or_eq_true, Bool.and_eq_true, decide_eq_true_eq,
        beq_iff_eq, ih, not_or, not_and]
      constructor
      · rintro (h | ⟨rfl, h⟩)
        · exact ⟨by omega, fun hyx => by subst hyx; exact absurd h (by omega)⟩
        · exact ⟨by omega, fun _ => h⟩
      · rintro ⟨h1, h2⟩
        rcases Nat.lt_trichotomy x.toNat y.toNat with h | h | h
        · exact Or.inl h
        · have hxy := char_eq_of_toNat_eq h
          exact Or.inr ⟨hxy, h2 hxy.symm⟩
        · exact absurd h h1

theorem strLe_iff_not_lt (s t : String) : strLe s t = true ↔ ¬ strLt t s = true :=
  strLeL_iff_not_lt s.data t.data

theorem Dec.le_iff_not_lt (a b : Dec) : Dec.le a b = true ↔ ¬ Dec.lt b a = true := by
  simp only [Dec.le, Dec.lt, decide_eq_true_eq]
  omega

/-- Soundness of the cross-multiplied comparison: `Dec.le` is ≤ of the
denoted rational numbers. -/
theorem Dec.le_iff_toRat (a b : Dec) : Dec.le a b = true ↔ a.toRat ≤ b.toRat := by
  simp only [Dec.le, Dec.toRat, decide_eq_true_eq]
  rw [div_le_div_iff₀ (by positivity) (by positivity)]
  constructor
  · intro h
    calc (a.num : ℚ) * (10 : ℚ) ^ b.exp
        = ((a.num * (10 : Int) ^ b.exp : Int) : ℚ) := by push_cast; ring
      _ ≤ ((b.num * (10 : Int) ^ a.exp : Int) : ℚ) := by exact_mod_cast h
      _ = (b.num : ℚ) * (10 : ℚ) ^ a.exp := by push_cast; ring
  · intro h
    have : ((a.num * (10 : Int) ^ b.exp : Int) : ℚ) ≤ ((b.num * (10 : Int) ^ a.exp : Int) : ℚ) := by
      calc ((a.num * (10 : Int) ^ b.exp : Int) : ℚ)
          = (a.num : ℚ) * (10 : ℚ) ^ b.exp := by push_cast; ring
        _ ≤ (b.num : ℚ) * (10 : ℚ) ^ a.exp := h
        _ = ((b.num * (10 : Int) ^ a.exp : Int) : ℚ) := by push_cast; ring
    exact_mod_cast this

/-- Soundness of `Dec.pos`: positivity of the denoted rational number. -/
theorem Dec.pos_iff_toRat (a : Dec) : Dec.pos a = true ↔ 0 < a.toRat := by
  simp only [Dec.pos, Dec.toRat, decide_eq_true_eq]
  rw [div_pos_iff_of_pos_right (by positivity)]
  exact ⟨fun h => by exact_mod_cast h, fun h => by exact_mod_cast h⟩

theorem strLe_eq_not_lt (s t : String) : strLe s t = !strLt t s := by
  rcases hlt : strLt t s
  · simp only [Bool.not_false]
    exact (strLe_iff_not_lt s t).mpr (by simp [hlt])
  · simp only [Bool.not_true]
    rcases h : strLe s t
    · rfl
    · exact absurd hlt ((strLe_iff_not_lt s t).mp h)

theorem Dec.le_eq_not_lt (a b : Dec) : Dec.le a b = !Dec.lt b a := by
  rcases hlt : Dec.lt b a
  · simp only [Bool.not_false]
    exact (Dec.le_iff_not_lt a b).mpr (by simp [hlt])
  · simp only [Bool.not_true]
    rcases h : Dec.le a b
    · rfl
    · exact absurd hlt ((Dec.le_iff_not_lt a b).mp h)

theorem guard_step (e s : Bool) :
    (if (!e) = true then some false else some s) = some (e && s) := by
  cases e <;> simp

theorem exact_cond (a : String) (o : Option String) :
    (o.isSome && (some a != o)) = !(match o with | none => true | some v => a == v) := by
  cases o <;> rfl

theorem priceOk_eq (f : Flight) (q : Query) :
    priceOk ⟨some f.flight_id, some f.origin, some f.destination,
      some f.departure_datetime, some f.arrival_datetime, some f.price⟩ q =
      (match q.price with
       | none => true
       | some v =>
         match pyFloat f.price, pyFloat v with
         | some rv, some qv => Dec.le rv qv
         | _, _ => false) := by
  cases hq : q.price with
  | none => simp [priceOk, hq]
  | some v =>
    simp only [priceOk, hq, Option.getD]
    cases pyFloat v <;> cases pyFloat f.price <;> simp [Dec.le_eq_not_lt]

theorem dtBlock_eq (dd ad : String) (qdd qad : Option String) :
    (match qdd with
     | some qd =>
       if strLt dd qd = true then some false
       else
         match qad with
         | some qa => if strLt qa ad = true then some false else some true
         | none => some true
     | none =>
       match qad with
       | some qa => if strLt qa ad = true then some false else some true
       | none => some true) =
    some ((match qdd with | none => true | some v => strLe v dd) &&
          (match qad with | none => true | some v => strLe ad v)) := by
  cases qdd <;> cases qad
  · rfl
  · rename_i a
    simp only [strLe_eq_not_lt]
    cases strLt a ad <;> simp
  · rename_i a
    simp only [strLe_eq_not_lt]
    cases strLt dd a <;> simp
  · rename_i a b
    simp only [strLe_eq_not_lt]
    cases strLt dd a <;> cases strLt b ad <;> simp

theorem flight_matches_total (f : Flight) (q : Query) :
    flight_matches_query f.toPartial q = some (matchesSpec f q) := by
  simp only [flight_matches_query, Flight.toPartial]
  rw [dtBlock_eq, guard_step]
  simp only [exact_cond]
  rw [guard_step, guard_step, guard_step, priceOk_eq]
  simp only [matchesSpec, Bool.and_assoc]

/-- The accumulators of `parseCsvGo` only collect output: a run is the
recursion's result appended to the starting accumulators. -/
theorem parseCsvGo_spec (lines : List String) (ln : Nat) (v : List Flight)
    (e : List ErrEntry) :
    parseCsvGo lines ln v e =
      (v ++ (parseCsvRec lines ln).1,
       e ++ (parseCsvRec lines ln).2.1,
       (parseCsvRec lines ln).2.2) := by
  induction lines generalizing ln v e with
  | nil => simp [parseCsvGo, parseCsvRec]
  | cons l rest ih =>
    simp only [parseCsvGo, parseCsvRec]
    by_cases h1 : pyStrip l = ""
    · simp [h1, ih]
    · rcases h2 : startsWithHash (pyStrip l)
      · simp only [h1, h2, Bool.false_eq_true, if_false, if_neg]
        rcases h3 : (pySplitComma l).map pyStrip with
          _ | ⟨a, _ | ⟨b, _ | ⟨c, _ | ⟨d, _ | ⟨e2, _ | ⟨f, _ | ⟨g, gs⟩⟩⟩⟩⟩⟩⟩ <;>
          simp only [h3] <;> try (simp [ih, List.append_assoc])
        split <;> simp [ih, List.append_assoc]
      · simp [h1, h2, ih, List.append_assoc]

/-- `parse_csv_file` computes exactly the specification's recursion. -/
theorem parse_csv_file_eq_rec (lines : List String) (n : Nat) :
    parse_csv_file lines n = parseCsvRec lines n := by
  rw [parse_csv_file, parseCsvGo_spec]
  simp

/-- The line counter advances by exactly one per physical line. -/
theorem parseCsvRec_next (lines : List String) (n : Nat) :
    (parseCsvRec lines n).2.2 = n + lines.length := by
  induction lines generalizing n with
  | nil => simp [parseCsvRec]
  | cons l rest ih =>
    simp only [parseCsvRec]
    split
    all_goals try split
    all_goals try split
    all_goals try split
    all_goals simp only [ih, List.length_cons]
    all_goals omega

theorem err_props_weaken (n : Nat) (E : List ErrEntry) (m k : Nat)
    (hbound : ∀ x ∈ E, n + 1 ≤ x.1 ∧ x.1 < m) (hm : m ≤ k) :
    ∀ x ∈ E, n ≤ x.1 ∧ x.1 < k := fun x hx => by
  have := hbound x hx
  omega

theorem err_entry_cons_props (n : Nat) (l msg : String) (E : List ErrEntry) (m k : Nat)
    (hbound : ∀ x ∈ E, n + 1 ≤ x.1 ∧ x.1 < m) (hm : m ≤ k)
    (hpair : List.Pairwise (fun x y => x < y) (E.map (fun x => x.1)))
    (hnk : n < k) :
    (∀ x ∈ (n, l, msg) :: E, n ≤ x.1 ∧ x.1 < k) ∧
    List.Pairwise (fun x y => x < y) (((n, l, msg) :: E).map (fun x => x.1)) := by
  constructor
  · intro x hx
    rcases List.mem_cons.mp hx with rfl | hx
    · exact ⟨le_refl n, hnk⟩
    · have := hbound x hx
      omega
  · simp only [List.map_cons]
    refine List.Pairwise.cons ?_ hpair
    intro y hy
    simp only [List.mem_map] at hy
    obtain ⟨x, hx, rfl⟩ := hy
    have := hbound x hx
    omega

/-- Error entries carry line numbers within the processed window, in
strictly increasing order. -/
theorem parse_csv_err_props (lines : List String) (n : Nat) :
    (∀ x ∈ (parse_csv_file lines n).2.1,
       n ≤ x.1 ∧ x.1 < (parse_csv_file lines n).2.2) ∧
    List.Pairwise (fun x y => x < y)
      ((parse_csv_file lines n).2.1.map (fun x => x.1)) := by
  rw [parse_csv_file_eq_rec]
  induction lines generalizing n with
  | nil => simp [parseCsvRec]
  | cons l rest ih =>
    obtain ⟨hbound, hpair⟩ := ih (n + 1)
    have hlt : n < (parseCsvRec rest (n + 1)).2.2 := by
      rw [parseCsvRec_next]
      omega
    simp only [parseCsvRec]
    split
    · exact ⟨err_props_weaken n _ _ _ hbound (le_refl _), hpair⟩
    · split
      · exact err_entry_cons_props n _ _ _ _ _ hbound (le_refl _) hpair hlt
      · split
        · split
          · exact ⟨err_props_weaken n _ _ _ hbound (le_refl _), hpair⟩
          · exact err_entry_cons_props n _ _ _ _ _ hbound (le_refl _) hpair hlt
        · exact err_entry_cons_props n _ _ _ _ _ hbound (le_refl _) hpair hlt

/-! ## JSON round-trip lemmas -/

theorem hexVal_hexDigit (k : Nat) (hk : k < 16) : hexVal (hexDigit k) = some k := by
  interval_cases k <;> rfl

theorem skipWs_stop (c : Char) (h : jsonWs c = false) (l : List Char) :
    skipWs (c :: l) = c :: l := by
  simp [skipWs, h]

theorem skipWs_idem (l : List Char) : skipWs (skipWs l) = skipWs l := by
  induction l with
  | nil => rfl
  | cons c cs ih =>
    rcases h : jsonWs c
    · simp [skipWs, h]
    · simp [skipWs, h, ih]

theorem expectChars_prefix (p : List Char) :
    ∀ (q l : List Char), expectChars (p ++ q) (p ++ l) = expectChars q l := by
  induction p with
  | nil => intro q l; rfl
  | cons c cs ih => intro q l; simp [expectChars, ih]

theorem expectChars_self (p r : List Char) : expectChars p (p ++ r) = some r := by
  have h := expectChars_prefix p [] r
  simpa using h

theorem jsonStrStep_quote (r : List Char) : jsonStrStep ('"' :: r) = some (none, r) := rfl

theorem jsonStrStep_ctrl (t : Nat) (ht : t < 32) (r : List Char) :
    jsonStrStep ('\\' :: 'u' :: (hex4 t ++ r)) = some (some (Char.ofNat t), r) := by
  interval_cases t <;> rfl

theorem jsonStrStep_plain (c : Char) (h1 : c ≠ '"') (h2 : c ≠ '\\') (h3 : ¬ c.toNat < 32)
    (r : List Char) :
    jsonStrStep (c :: r) = some (some c, r) := by
  unfold jsonStrStep
  dsimp only []
  rw [if_neg h1, if_neg h2, if_neg h3]

/-- One escaped character decodes back to itself (ASCII range). -/
theorem jsonStrStep_escape (c : Char) (hc : c.toNat < 128) (r : List Char) :
    jsonStrStep (jsonEscapeChar c ++ r) = some (some c, r) := by
  by_cases h1 : c = '"'
  · subst h1; rfl
  · by_cases h2 : c = '\\'
    · subst h2; rfl
    · by_cases h3 : c = '\n'
      · subst h3; rfl
      · by_cases h4 : c = '\t'
        · subst h4; rfl
        · by_cases h5 : c = '\r'
          · subst h5; rfl
          · by_cases h6 : c = '\x08'
            · subst h6; rfl
            · by_cases h7 : c = '\x0c'
              · subst h7; rfl
              · by_cases h8 : c.toNat < 32
                · rw [show jsonEscapeChar c = '\\' :: 'u' :: hex4 c.toNat from by
                    unfold jsonEscapeChar
                    rw [if_neg h1, if_neg h2, if_neg h3, if_neg h4, if_neg h5, if_neg h6,
                      if_neg h7, if_pos h8]]
                  simp only [List.cons_append]
                  rw [jsonStrStep_ctrl c.toNat h8, Char.ofNat_toNat]
                · rw [show jsonEscapeChar c = [c] from by
                    unfold jsonEscapeChar
                    rw [if_neg h1, if_neg h2, if_neg h3, if_neg h4, if_neg h5, if_neg h6,
                      if_neg h7, if_neg h8, if_pos hc]]
                  simp only [List.cons_append, List.nil_append]
                  rw [jsonStrStep_plain c h1 h2 h8]

theorem parseJStrF_escape : ∀ (s : List Char), (∀ c ∈ s, c.toNat < 128) →
    ∀ (k : Nat) (r : List Char),
      parseJStrF (s.length + 1 + k) (jsonEscape s ++ '"' :: r) = some (s, r) := by
  intro s
  induction s with
  | nil =>
    intro _ k r
    rw [show ([] : List Char).length + 1 + k = k + 1 from by simp only [List.length_nil]; omega]
    rw [show jsonEscape [] ++ '"' :: r = '"' :: r from rfl]
    simp [parseJStrF, jsonStrStep_quote]
  | cons c cs ih =>
    intro h k r
    have hc : c.toNat < 128 := h c (List.mem_cons_self c cs)
    have hcs : ∀ x ∈ cs, x.toNat < 128 := fun x hx => h x (List.mem_cons_of_mem c hx)
    rw [show (c :: cs).length + 1 + k = (cs.length + 1 + k) + 1 from by simp; omega]
    rw [show jsonEscape (c :: cs) ++ '"' :: r =
        jsonEscapeChar c ++ (jsonEscape cs ++ '"' :: r) from by
      simp [jsonEscape, List.append_assoc]]
    simp only [parseJStrF, jsonStrStep_escape c hc]
    rw [ih hcs k r]
    rfl

theorem jsonEscapeChar_len (c : Char) : 1 ≤ (jsonEscapeChar c).length := by
  by_cases h1 : c = '"'
  · simp [jsonEscapeChar, h1]
  · by_cases h2 : c = '\\'
    · simp [jsonEscapeChar, h1, h2]
    · simp only [jsonEscapeChar, if_neg h1, if_neg h2]
      split_ifs <;> simp [hex4]

theorem jsonEscape_len (s : List Char) : s.length ≤ (jsonEscape s).length := by
  induction s with
  | nil => simp [jsonEscape]
  | cons c cs ih =>
    have h1 := jsonEscapeChar_len c
    simp [jsonEscape, List.length_append]
    omega

/-- Escaped string bodies decode back to the original characters (ASCII
range; beyond it `ensure_ascii` emits surrogate escapes, outside this
lemma). -/
theorem parseJStr_escape (s : List Char) (h : ∀ c ∈ s, c.toNat < 128) (r : List Char) :
    parseJStr (jsonEscape s ++ '"' :: r) = some (s, r) := by
  have hlen := jsonEscape_len s
  unfold parseJStr
  rw [show (jsonEscape s ++ '"' :: r).length + 1 =
      s.length + 1 + ((jsonEscape s).length - s.length + 1 + r.length) from by
    simp [List.length_append]
    omega]
  exact parseJStrF_escape s h _ r

theorem asciiString_mem (s : String) (h : asciiString s = true) :
    ∀ c ∈ s.data, c.toNat < 128 := by
  simp only [asciiString, List.all_eq_true, decide_eq_true_eq] at h
  exact h

theorem skipWs_sp (l : List Char) : skipWs (' ' :: l) = skipWs l := rfl

theorem skipWs_nl (l : List Char) : skipWs ('\n' :: l) = skipWs l := rfl

theorem skipWs_quote2 (l : List Char) : skipWs ('"' :: l) = '"' :: l := rfl

theorem skipWs_colon (l : List Char) : skipWs (':' :: l) = ':' :: l := rfl

theorem skipWs_comma (l : List Char) : skipWs (',' :: l) = ',' :: l := rfl

theorem skipWs_lbrace (l : List Char) : skipWs ('{' :: l) = '{' :: l := rfl

theorem skipWs_rbrace (l : List Char) : skipWs ('}' :: l) = '}' :: l := rfl

theorem expectChars_cons_same (c : Char) (cs l : List Char) :
    expectChars (c :: cs) (c :: l) = expectChars cs l := by
  simp [expectChars]

theorem expectChars_single (c : Char) (l : List Char) :
    expectChars [c] (c :: l) = some l := by
  simp [expectChars]

theorem parseField_nl (key : String) (l : List Char) :
    parseField key ('\n' :: l) = parseField key l := rfl

/-- One rendered member line parses back to the field value. -/
theorem parseField_pair (key v : String) (hkey : jsonEscape key.data = key.data)
    (hv : ∀ c ∈ v.data, c.toNat < 128) (r : List Char) :
    parseField key (renderPair (key, v) ++ r) = some (v.data, r) := by
  unfold parseField
  simp only [renderPair, quoteStr, List.cons_append, List.append_assoc, List.nil_append]
  rw [skipWs_sp, skipWs_sp, skipWs_sp, skipWs_sp, skipWs_quote2]
  rw [expectChars_cons_same, hkey, expectChars_prefix key.data ['"'], expectChars_single]
  simp only [Option.bind_eq_bind, Option.some_bind]
  rw [skipWs_colon, expectChars_single]
  simp only [Option.some_bind]
  rw [skipWs_sp, skipWs_quote2, expectChars_single]
  simp only [Option.some_bind]
  exact parseJStr_escape v.data hv r

/-- One rendered record object parses back to the record. -/
theorem parseObj_render (f : Flight) (hf : asciiFlight f = true) (r : List Char) :
    parseObj (renderFlight f ++ r) = some (f, r) := by
  obtain ⟨⟨⟨⟨⟨hfi, hog⟩, hds⟩, hdd⟩, had⟩, hpr⟩ :
      ((((asciiString f.flight_id = true ∧ asciiString f.origin = true) ∧
        asciiString f.destination = true) ∧ asciiString f.departure_datetime = true) ∧
        asciiString f.arrival_datetime = true) ∧ asciiString f.price = true := by
    simpa only [asciiFlight, Bool.and_eq_true] using hf
  unfold parseObj
  simp only [renderFlight, flightPairs, List.map_cons, List.map_nil, sepByL,
    List.cons_append, List.append_assoc, List.nil_append]
  rw [skipWs_sp, skipWs_sp, skipWs_lbrace, expectChars_single]
  simp only [Option.bind_eq_bind, Option.some_bind]
  rw [parseField_nl, parseField_pair "arrival_datetime" f.arrival_datetime (by decide)
    (asciiString_mem _ had) _]
  simp only [Option.some_bind]
  rw [skipWs_comma, expectChars_single]
  simp only [Option.some_bind]
  rw [parseField_nl, parseField_pair "departure_datetime" f.departure_datetime (by decide)
    (asciiString_mem _ hdd) _]
  simp only [Option.some_bind]
  rw [skipWs_comma, expectChars_single]
  simp only [Option.some_bind]
  rw [parseField_nl, parseField_pair "destination" f.destination (by decide)
    (asciiString_mem _ hds) _]
  simp only [Option.some_bind]
  rw [skipWs_comma, expectChars_single]
  simp only [Option.some_bind]
  rw [parseField_nl, parseField_pair "flight_id" f.flight_id (by decide)
    (asciiString_mem _ hfi) _]
  simp only [Option.some_bind]
  rw [skipWs_comma, expectChars_single]
  simp only [Option.some_bind]
  rw [parseField_nl, parseField_pair "origin" f.origin (by decide)
    (asciiString_mem _ hog) _]
  simp only [Option.some_bind]
  rw [skipWs_comma, expectChars_single]
  simp only [Option.some_bind]
  rw [parseField_nl, parseField_pair "price" f.price (by decide)
    (asciiString_mem _ hpr) _]
  simp only [Option.some_bind]
  rw [skipWs_nl, skipWs_sp, skipWs_sp, skipWs_rbrace, expectChars_single]
  simp only [Option.some_bind]

theorem skipWs_lbracket (l : List Char) : skipWs ('[' :: l) = '[' :: l := rfl

theorem parseObj_skipWs (l : List Char) : parseObj (skipWs l) = parseObj l := by
  unfold parseObj
  rw [skipWs_idem]

theorem parseItems_skipWs (fuel : Nat) (l : List Char) :
    parseItems fuel (skipWs l) = parseItems fuel l := by
  cases fuel with
  | zero => rfl
  | succ n =>
    unfold parseItems
    rw [parseObj_skipWs]

theorem parseItems_nl (fuel : Nat) (l : List Char) :
    parseItems fuel ('\n' :: l) = parseItems fuel l :=
  calc parseItems fuel ('\n' :: l)
      = parseItems fuel (skipWs ('\n' :: l)) := (parseItems_skipWs _ _).symm
    _ = parseItems fuel (skipWs l) := by rw [skipWs_nl]
    _ = parseItems fuel l := parseItems_skipWs _ _

/-- The rendered items of a nonempty record list parse back, one fuel unit
per item. -/
theorem parseItems_render : ∀ (fs : List Flight) (g : Flight),
    (∀ x ∈ g :: fs, asciiFlight x = true) →
    ∀ (n : Nat) (r : List Char),
      parseItems ((g :: fs).length + 1 + n)
        (sepByL [',', '\n'] ((g :: fs).map renderFlight) ++ '\n' :: ']' :: r) =
      some (g :: fs, r) := by
  intro fs
  induction fs with
  | nil =>
    intro g hall n r
    simp only [List.map_cons, List.map_nil, sepByL]
    rw [show ([g] : List Flight).length + 1 + n = (n + 1) + 1 from by simp; omega]
    unfold parseItems
    rw [parseObj_render g (hall g (List.mem_cons_self g [])) ('\n' :: ']' :: r)]
    simp only [Option.bind_eq_bind, Option.some_bind]
    rw [show skipWs ('\n' :: ']' :: r) = ']' :: r from rfl]
    simp [expectChars_single]
  | cons g2 rest ih =>
    intro g hall n r
    have hall2 : ∀ x ∈ g2 :: rest, asciiFlight x = true :=
      fun x hx => hall x (List.mem_cons_of_mem g hx)
    simp only [List.map_cons, sepByL, List.cons_append, List.append_assoc, List.nil_append]
    rw [show (g :: g2 :: rest).length + 1 + n = ((g2 :: rest).length + 1 + n) + 1 from by
      simp
      omega]
    unfold parseItems
    rw [parseObj_render g (hall g (List.mem_cons_self g (g2 :: rest)))]
    simp only [Option.bind_eq_bind, Option.some_bind, skipWs_comma]
    have hrec := ih g2 hall2 n r
    simp only [List.map_cons, sepByL, List.cons_append, List.append_assoc,
      List.nil_append] at hrec
    simp only [parseItems_nl, hrec, Option.some_bind]

theorem renderFlight_len (f : Flight) : 1 ≤ (renderFlight f).length := by
  simp [renderFlight]

theorem sepByL_len_ge (fs : List Flight) :
    fs.length ≤ (sepByL [',', '\n'] (fs.map renderFlight)).length := by
  induction fs with
  | nil => simp [sepByL]
  | cons f rest ih =>
    cases rest with
    | nil =>
      have := renderFlight_len f
      simp only [List.map_cons, List.map_nil, sepByL, List.length_cons, List.length_nil]
      omega
    | cons g rest2 =>
      have h1 := renderFlight_len f
      simp only [List.map_cons, sepByL, List.cons_append, List.append_assoc,
        List.nil_append, List.length_append, List.length_cons] at ih ⊢
      omega

theorem sepByL_render_shape (g : Flight) (fs : List Flight) (X : List Char) :
    ∃ T, sepByL [',', '\n'] ((g :: fs).map renderFlight) ++ X = ' ' :: ' ' :: '{' :: T := by
  cases fs with
  | nil =>
    simp only [List.map_cons, List.map_nil, sepByL, renderFlight, List.cons_append,
      List.append_assoc, List.nil_append]
    exact ⟨_, rfl⟩
  | cons a b =>
    simp only [List.map_cons, sepByL, renderFlight, List.cons_append,
      List.append_assoc, List.nil_append]
    exact ⟨_, rfl⟩

theorem parseDb_match_default (T : List Char) (F : Nat) :
    (match '{' :: T with
     | ']' :: l2 => if skipWs l2 = [] then some ([] : List Flight) else none
     | l2 => (parseItems F l2).bind fun p => if skipWs p.2 = [] then some p.1 else none) =
    (parseItems F ('{' :: T)).bind
      (fun p => if skipWs p.2 = [] then some p.1 else none) := rfl

/-- Writing then loading the database recovers the record list. -/
theorem load_db_json_write (fs : List Flight) (h : ∀ f ∈ fs, asciiFlight f = true) :
    load_db_json (write_db_json fs) = some fs := by
  cases fs with
  | nil => decide
  | cons g rest =>
    unfold load_db_json write_db_json parseDb
    rw [show (String.mk (writeDbL (g :: rest))).data = writeDbL (g :: rest) from rfl]
    rw [show writeDbL (g :: rest) =
        '[' :: '\n' :: (sepByL [',', '\n'] ((g :: rest).map renderFlight) ++
          '\n' :: ']' :: []) from rfl]
    rw [skipWs_lbracket, expectChars_single]
    simp only [Option.bind_eq_bind, Option.some_bind]
    obtain ⟨T, hT⟩ := sepByL_render_shape g rest ('\n' :: ']' :: [])
    have hlen : (g :: rest).length ≤ T.length + 1 := by
      have h2 := congrArg List.length hT
      have h3 := sepByL_len_ge (g :: rest)
      simp only [List.length_append, List.length_cons] at h2 h3 ⊢
      omega
    rw [show skipWs ('\n' :: (sepByL [',', '\n'] ((g :: rest).map renderFlight) ++
        '\n' :: ']' :: [])) =
        skipWs (sepByL [',', '\n'] ((g :: rest).map renderFlight) ++ '\n' :: ']' :: [])
      from rfl]
    have hskip : skipWs (sepByL [',', '\n'] ((g :: rest).map renderFlight) ++
        '\n' :: ']' :: []) = '{' :: T := by
      rw [hT]
      rfl
    rw [hskip, parseDb_match_default]
    have hpi : parseItems
        (('[' :: '\n' :: (sepByL [',', '\n'] ((g :: rest).map renderFlight) ++
          '\n' :: ']' :: [])).length + 1) ('{' :: T) =
        parseItems
        (('[' :: '\n' :: (sepByL [',', '\n'] ((g :: rest).map renderFlight) ++
          '\n' :: ']' :: [])).length + 1)
        (sepByL [',', '\n'] ((g :: rest).map renderFlight) ++ '\n' :: ']' :: []) := by
      rw [← hskip, parseItems_skipWs]
    rw [hpi]
    have hlen2 := congrArg List.length hT
    rw [show ('[' :: '\n' :: (sepByL [',', '\n'] ((g :: rest).map renderFlight) ++
        '\n' :: ']' :: [])).length + 1 =
        (g :: rest).length + 1 +
          (('[' :: '\n' :: (sepByL [',', '\n'] ((g :: rest).map renderFlight) ++
            '\n' :: ']' :: [])).length - (g :: rest).length) from by
      simp only [List.length_cons, List.length_append] at hlen2 hlen ⊢
      omega]
    rw [parseItems_render rest g h _ []]
    simp [skipWs]

/-- C8: writing a record list with `write_db_json`, loading it back with
`load_db_json`, and writing the loaded value again is byte-identical to the
first write: the load recovers the original list (fields within the ASCII
range the model escapes) and the serialization is deterministic with
alphabetical field order and stable formatting, so the round trip is
idempotent. -/
theorem db_json_roundtrip (fs : List Flight) (h : ∀ f ∈ fs, asciiFlight f = true) :
    load_db_json (write_db_json fs) = some fs ∧
    write_db_json ((load_db_json (write_db_json fs)).getD []) = write_db_json fs := by
  have h1 := load_db_json_write fs h
  refine ⟨h1, ?_⟩
  rw [h1]
  rfl

/-- C8 witness: a two-record database round-trips byte-identically. -/
theorem db_json_roundtrip_witness :
    load_db_json (write_db_json
      [⟨"AB12", "JFK", "LAX", "2025-12-01 09:00", "2025-12-01 12:00", "199.99"⟩,
       ⟨"CD3", "RIX", "HEL", "2025-11-05 08:30", "2025-11-05 10:00", "89.50"⟩]) =
      some [⟨"AB12", "JFK", "LAX", "2025-12-01 09:00", "2025-12-01 12:00", "199.99"⟩,
            ⟨"CD3", "RIX", "HEL", "2025-11-05 08:30", "2025-11-05 10:00", "89.50"⟩] ∧
    write_db_json ((load_db_json (write_db_json
      [⟨"AB12", "JFK", "LAX", "2025-12-01 09:00", "2025-12-01 12:00", "199.99"⟩,
       ⟨"CD3", "RIX", "HEL", "2025-11-05 08:30", "2025-11-05 10:00", "89.50"⟩])).getD []) =
      write_db_json
      [⟨"AB12", "JFK", "LAX", "2025-12-01 09:00", "2025-12-01 12:00", "199.99"⟩,
       ⟨"CD3", "RIX", "HEL", "2025-11-05 08:30", "2025-11-05 10:00", "89.50"⟩] :=
  db_json_roundtrip
    [⟨"AB12", "JFK", "LAX", "2025-12-01 09:00", "2025-12-01 12:00", "199.99"⟩,
     ⟨"CD3", "RIX", "HEL", "2025-11-05 08:30", "2025-11-05 10:00", "89.50"⟩]
    (by decide)

theorem mem_invalid_flight_id (i o d dd ad p : String) :
    ("Invalid flight_id" ∈ validateFields i o d dd ad p) ↔ reMatchAlnum28 i = false := by
  rw [validateFields_eq]
  cases hdep : strptimeYmdHM dd <;> cases harr : strptimeYmdHM ad <;>
    cases hp : pyFloat p <;>
      simp [mem_ite_nil_single]

theorem mem_invalid_origin (i o d dd ad p : String) :
    ("Invalid origin" ∈ validateFields i o d dd ad p) ↔ reMatchUpper3 o = false := by
  rw [validateFields_eq]
  cases hdep : strptimeYmdHM dd <;> cases harr : strptimeYmdHM ad <;>
    cases hp : pyFloat p <;>
      simp [mem_ite_nil_single]

theorem mem_invalid_destination (i o d dd ad p : String) :
    ("Invalid destination" ∈ validateFields i o d dd ad p) ↔ reMatchUpper3 d = false := by
  rw [validateFields_eq]
  cases hdep : strptimeYmdHM dd <;> cases harr : strptimeYmdHM ad <;>
    cases hp : pyFloat p <;>
      simp [mem_ite_nil_single]

theorem mem_invalid_departure (i o d dd ad p : String) :
    ("Invalid departure_datetime" ∈ validateFields i o d dd ad p) ↔
      strptimeYmdHM dd = none := by
  rw [validateFields_eq]
  cases hdep : strptimeYmdHM dd <;> cases harr : strptimeYmdHM ad <;>
    cases hp : pyFloat p <;>
      simp [mem_ite_nil_single]

theorem mem_invalid_arrival (i o d dd ad p : String) :
    ("Invalid arrival_datetime" ∈ validateFields i o d dd ad p) ↔
      strptimeYmdHM ad = none := by
  rw [validateFields_eq]
  cases hdep : strptimeYmdHM dd <;> cases harr : strptimeYmdHM ad <;>
    cases hp : pyFloat p <;>
      simp [mem_ite_nil_single]

theorem reMatchAlnum28_iff (s : String) :
    reMatchAlnum28 s = true ↔
      (fullAlnum28 s.data = true ∨
        (s.data.getLast? = some '\n' ∧ fullAlnum28 s.data.dropLast = true)) := by
  simp [reMatchAlnum28, Bool.or_eq_true, Bool.and_eq_true, beq_iff_eq]

theorem reMatchUpper3_iff (s : String) :
    reMatchUpper3 s = true ↔
      (fullUpper3 s.data = true ∨
        (s.data.getLast? = some '\n' ∧ fullUpper3 s.data.dropLast = true)) := by
  simp [reMatchUpper3, Bool.or_eq_true, Bool.and_eq_true, beq_iff_eq]

theorem digitChar_beq (k j : Nat) (hk : k < 10) (hj : j < 10) :
    (digitChar k == digitChar j) = decide (k = j) := by
  interval_cases k <;> interval_cases j <;> rfl

theorem digitChar_lt_iff (k j : Nat) (hk : k < 10) (hj : j < 10) :
    decide ((digitChar k).toNat < (digitChar j).toNat) = decide (k < j) := by
  interval_cases k <;> interval_cases j <;> rfl

theorem list_cons_beq (a b : Char) (as bs : List Char) :
    ((a :: as : List Char) == b :: bs) = (a == b && as == bs) := rfl

theorem strLtL_cons_same (c : Char) (xs ys : List Char) :
    strLtL (c :: xs) (c :: ys) = strLtL xs ys := by
  simp [strLtL]

theorem strLtL_append (xs : List Char) :
    ∀ (ys l1 l2 : List Char), xs.length = ys.length →
      strLtL (xs ++ l1) (ys ++ l2) =
        (strLtL xs ys || (xs == ys && strLtL l1 l2)) := by
  induction xs with
  | nil =>
    intro ys l1 l2 h
    cases ys with
    | nil => simp [strLtL]
    | cons b bs => simp at h
  | cons a as ih =>
    intro ys l1 l2 h
    cases ys with
    | nil => simp at h
    | cons b bs =>
      simp only [List.cons_append, strLtL, list_cons_beq, List.append_eq]
      rw [ih bs l1 l2 (by simpa using h)]
      cases hd : decide (a.toNat < b.toNat) <;> cases hab : a == b <;>
        cases h1 : strLtL as bs <;> cases h2 : as == bs <;>
          cases h3 : strLtL l1 l2 <;> simp

theorem digitChar_beq_mod (k j : Nat) :
    (digitChar (k % 10) == digitChar (j % 10)) = decide (k % 10 = j % 10) :=
  digitChar_beq _ _ (Nat.mod_lt _ (by omega)) (Nat.mod_lt _ (by omega))

theorem digitChar_lt_mod (k j : Nat) :
    decide ((digitChar (k % 10)).toNat < (digitChar (j % 10)).toNat) =
      decide (k % 10 < j % 10) :=
  digitChar_lt_iff _ _ (Nat.mod_lt _ (by omega)) (Nat.mod_lt _ (by omega))

theorem pad2_beq (m n : Nat) (hm : m < 100) (hn : n < 100) :
    (pad2 m == pad2 n) = decide (m = n) := by
  simp only [pad2, list_cons_beq, digitChar_beq_mod]
  apply Bool.eq_iff_iff.mpr
  simp
  omega

theorem pad4_eq_pad2 (y : Nat) : pad4 y = pad2 (y / 100) ++ pad2 (y % 100) := by
  simp only [pad4, pad2, List.cons_append, List.nil_append]
  have e1 : y / 1000 % 10 = y / 100 / 10 % 10 := by omega
  have e2 : y / 100 % 10 = y / 100 % 10 := rfl
  have e3 : y / 10 % 10 = y % 100 / 10 % 10 := by omega
  have e4 : y % 10 = y % 100 % 10 := by omega
  rw [e1, e3, e4]

theorem pad4_beq (y1 y2 : Nat) (h1 : y1 < 10000) (h2 : y2 < 10000) :
    (pad4 y1 == pad4 y2) = decide (y1 = y2) := by
  rw [pad4_eq_pad2, pad4_eq_pad2]
  have hlen : (pad2 (y1 / 100)).length = (pad2 (y2 / 100)).length := by simp [pad2]
  rw [show ((pad2 (y1 / 100) ++ pad2 (y1 % 100)) == (pad2 (y2 / 100) ++ pad2 (y2 % 100))) =
      ((pad2 (y1 / 100) == pad2 (y2 / 100)) && (pad2 (y1 % 100) == pad2 (y2 % 100))) from by
    simp [pad2, list_cons_beq]
    cases h1 : digitChar (y1 / 100 / 10 % 10) == digitChar (y2 / 100 / 10 % 10) <;>
      cases h2 : digitChar (y1 / 100 % 10) == digitChar (y2 / 100 % 10) <;> simp]
  rw [pad2_beq _ _ (by omega) (by omega), pad2_beq _ _ (by omega) (by omega)]
  apply Bool.eq_iff_iff.mpr
  simp
  omega

theorem strLt_pad2 (m n : Nat) (hm : m < 100) (hn : n < 100) :
    strLtL (pad2 m) (pad2 n) = decide (m < n) := by
  simp only [pad2, strLtL, digitChar_beq_mod, digitChar_lt_mod]
  apply Bool.eq_iff_iff.mpr
  simp
  omega

theorem strLt_pad4 (y1 y2 : Nat) (h1 : y1 < 10000) (h2 : y2 < 10000) :
    strLtL (pad4 y1) (pad4 y2) = decide (y1 < y2) := by
  rw [pad4_eq_pad2, pad4_eq_pad2]
  rw [strLtL_append _ _ _ _ (by simp [pad2])]
  rw [strLt_pad2 _ _ (by omega) (by omega), strLt_pad2 _ _ (by omega) (by omega),
    pad2_beq _ _ (by omega) (by omega)]
  apply Bool.eq_iff_iff.mpr
  simp
  omega

theorem dtLe_eq_not_lt (a b : DT) : dtLe a b = !dtLt b a := by
  rcases h : dtLt b a
  · simp only [Bool.not_false]
    exact (dtLe_iff_not_lt a b).mpr (by simp [h])
  · simp only [Bool.not_true]
    rcases h2 : dtLe a b
    · rfl
    · exact absurd h ((dtLe_iff_not_lt a b).mp h2)

/-- Lexicographic comparison of two canonical spellings is exactly the
chronological comparison of their components. -/
theorem strLt_render (y1 mo1 dd1 hh1 mi1 y2 mo2 dd2 hh2 mi2 : Nat)
    (hy1 : y1 < 10000) (hy2 : y2 < 10000) (hmo1 : mo1 < 100) (hmo2 : mo2 < 100)
    (hd1 : dd1 < 100) (hd2 : dd2 < 100) (hh1b : hh1 < 100) (hh2b : hh2 < 100)
    (hmi1 : mi1 < 100) (hmi2 : mi2 < 100) :
    strLtL (renderDT y1 mo1 dd1 hh1 mi1).data (renderDT y2 mo2 dd2 hh2 mi2).data =
      dtLt ⟨y1, mo1, dd1, hh1, mi1⟩ ⟨y2, mo2, dd2, hh2, mi2⟩ := by
  rw [show (renderDT y1 mo1 dd1 hh1 mi1).data =
      pad4 y1 ++ '-' :: (pad2 mo1 ++ '-' :: (pad2 dd1 ++ ' ' :: (pad2 hh1 ++ ':' :: pad2 mi1)))
    from rfl]
  rw [show (renderDT y2 mo2 dd2 hh2 mi2).data =
      pad4 y2 ++ '-' :: (pad2 mo2 ++ '-' :: (pad2 dd2 ++ ' ' :: (pad2 hh2 ++ ':' :: pad2 mi2)))
    from rfl]
  rw [strLtL_append _ _ _ _ (by simp [pad4]), strLt_pad4 _ _ hy1 hy2, pad4_beq _ _ hy1 hy2,
    strLtL_cons_same,
    strLtL_append _ _ _ _ (by simp [pad2]), strLt_pad2 _ _ hmo1 hmo2, pad2_beq _ _ hmo1 hmo2,
    strLtL_cons_same,
    strLtL_append _ _ _ _ (by simp [pad2]), strLt_pad2 _ _ hd1 hd2, pad2_beq _ _ hd1 hd2,
    strLtL_cons_same,
    strLtL_append _ _ _ _ (by simp [pad2]), strLt_pad2 _ _ hh1b hh2b, pad2_beq _ _ hh1b hh2b,
    strLtL_cons_same,
    strLt_pad2 _ _ hmi1 hmi2]
  rfl

/-- C6 counterexample: both strings parse under the validator's format
(Python's `%H` also matches a single digit), the first is lexicographically
smaller, yet it denotes the chronologically LATER time — so lexicographic
order does not agree with chronological order on all strings the format
accepts, and the claim's equivalence fails. -/
theorem lex_chrono_cex :
    strptimeYmdHM "2025-12-01 10:00" = some ⟨2025, 12, 1, 10, 0⟩ ∧
    strptimeYmdHM "2025-12-01 9:00" = some ⟨2025, 12, 1, 9, 0⟩ ∧
    strLe "2025-12-01 10:00" "2025-12-01 9:00" = true ∧
    dtLe ⟨2025, 12, 1, 10, 0⟩ ⟨2025, 12, 1, 9, 0⟩ = false := by
  refine ⟨by decide, by decide, by decide, by decide⟩

/-- C6 (amended): restricted to canonical zero-padded spellings (which all
parse, to exactly their components), lexicographic string order does agree
with chronological order — this is the property the query evaluator's plain
string comparisons rely on, and it holds on the canonical strings the
database contains, though not on every string the validator accepts. -/
theorem lex_chrono_canonical (y1 mo1 d1 h1 mi1 y2 mo2 d2 h2 mi2 : Nat)
    (hy11 : 1 ≤ y1) (hy12 : y1 ≤ 9999) (hmo11 : 1 ≤ mo1) (hmo12 : mo1 ≤ 12)
    (hd11 : 1 ≤ d1) (hd12 : d1 ≤ daysInMonth y1 mo1) (hh1 : h1 ≤ 23) (hmi1 : mi1 ≤ 59)
    (hy21 : 1 ≤ y2) (hy22 : y2 ≤ 9999) (hmo21 : 1 ≤ mo2) (hmo22 : mo2 ≤ 12)
    (hd21 : 1 ≤ d2) (hd22 : d2 ≤ daysInMonth y2 mo2) (hh2 : h2 ≤ 23) (hmi2 : mi2 ≤ 59) :
    strptimeYmdHM (renderDT y1 mo1 d1 h1 mi1) = some ⟨y1, mo1, d1, h1, mi1⟩ ∧
    strptimeYmdHM (renderDT y2 mo2 d2 h2 mi2) = some ⟨y2, mo2, d2, h2, mi2⟩ ∧
    (strLe (renderDT y1 mo1 d1 h1 mi1) (renderDT y2 mo2 d2 h2 mi2) = true ↔
      dtLe ⟨y1, mo1, d1, h1, mi1⟩ ⟨y2, mo2, d2, h2, mi2⟩ = true) := by
  refine ⟨strptime_render y1 mo1 d1 h1 mi1 hy11 hy12 hmo11 hmo12 hd11 hd12 hh1 hmi1,
    strptime_render y2 mo2 d2 h2 mi2 hy21 hy22 hmo21 hmo22 hd21 hd22 hh2 hmi2, ?_⟩
  have hb : strLe (renderDT y1 mo1 d1 h1 mi1) (renderDT y2 mo2 d2 h2 mi2) =
      dtLe ⟨y1, mo1, d1, h1, mi1⟩ ⟨y2, mo2, d2, h2, mi2⟩ := by
    rw [strLe_eq_not_lt]
    rw [show strLt (renderDT y2 mo2 d2 h2 mi2) (renderDT y1 mo1 d1 h1 mi1) =
        strLtL (renderDT y2 mo2 d2 h2 mi2).data (renderDT y1 mo1 d1 h1 mi1).data from rfl]
    rw [strLt_render y2 mo2 d2 h2 mi2 y1 mo1 d1 h1 mi1
      (by omega) (by omega) (by omega) (by omega)
      (by have := daysInMonth_le_31 y2 mo2; omega)
      (by have := daysInMonth_le_31 y1 mo1; omega) (by omega) (by omega) (by omega) (by omega)]
    rw [← dtLe_eq_not_lt]
  rw [hb]

/-- C6 witness: two concrete canonical spellings, one hour apart. -/
theorem lex_chrono_canonical_witness :
    strptimeYmdHM (renderDT 2025 12 1 9 0) = some ⟨2025, 12, 1, 9, 0⟩ ∧
    strptimeYmdHM (renderDT 2025 12 1 10 0) = some ⟨2025, 12, 1, 10, 0⟩ ∧
    (strLe (renderDT 2025 12 1 9 0) (renderDT 2025 12 1 10 0) = true ↔
      dtLe ⟨2025, 12, 1, 9, 0⟩ ⟨2025, 12, 1, 10, 0⟩ = true) :=
  lex_chrono_canonical 2025 12 1 9 0 2025 12 1 10 0
    (by decide) (by decide) (by decide) (by decide) (by decide) (by decide)
    (by decide) (by decide) (by decide) (by decide) (by decide) (by decide)
    (by decide) (by decide) (by decide) (by decide)

/-- C5 counterexample: the claim reads the datetime rule as the strict
2-digit `YYYY-MM-DD HH:MM` calendar format, but the validator accepts the
one-digit month spelling "2025-1-01 09:00" (Python's `%m` also matches a
single digit), so no "Invalid departure_datetime" reason is appended for a
string outside the claimed format. -/
theorem validate_datetime_2digit_cex :
    ¬ (("Invalid departure_datetime" ∈
          validateFields "AB12" "JFK" "LAX" "2025-1-01 09:00" "2025-12-01 12:00" "9.99") ↔
        ¬ canonicalDT "2025-1-01 09:00" = true) := by
  decide

/-- C5 (amended): `validate_record` appends "Invalid departure_datetime"
(resp. "Invalid arrival_datetime") iff the field fails to parse under the
code's `%Y-%m-%d %H:%M` semantics: exactly four year digits, one-or-two
digit month (1-12), day (1-31, validated against the calendar), hour
(0-23) and minute (0-59), any nonempty whitespace run as separator, year
at least 1.  Every string of the claimed zero-padded 2-digit calendar
format is accepted (but, per the counterexample, not only those). -/
theorem validate_datetime_rule (i o d dd ad p : String) :
    ("Invalid departure_datetime" ∈ validateFields i o d dd ad p ↔
      strptimeYmdHM dd = none) ∧
    ("Invalid arrival_datetime" ∈ validateFields i o d dd ad p ↔
      strptimeYmdHM ad = none) ∧
    (∀ s : String, canonicalDT s = true → (strptimeYmdHM s).isSome = true) := by
  refine ⟨mem_invalid_departure i o d dd ad p, mem_invalid_arrival i o d dd ad p, ?_⟩
  intro s hsc
  obtain ⟨y, mo, d2, h, mi, hy1, hy2, hmo1, hmo2, hd1, hdm, hh, hmi2, rfl⟩ :=
    canonical_eq_render s hsc
  rw [strptime_render y mo d2 h mi hy1 hy2 hmo1 hmo2 hd1 hdm hh hmi2]
  rfl

/-- C5 witness: an unparsable departure datetime is reported, and the
canonical spelling "2025-12-01 09:00" is accepted by the format. -/
theorem validate_datetime_rule_witness :
    ("Invalid departure_datetime" ∈
        validateFields "AB12" "JFK" "LAX" "2025-13-01 09:00" "2025-12-01 12:00" "9.99" ↔
      strptimeYmdHM "2025-13-01 09:00" = none) ∧
    (strptimeYmdHM "2025-12-01 09:00").isSome = true :=
  ⟨(validate_datetime_rule "AB12" "JFK" "LAX" "2025-13-01 09:00" "2025-12-01 12:00" "9.99").1,
   (validate_datetime_rule "" "" "" "" "" "").2.2 "2025-12-01 09:00" (by decide)⟩

/-- C7 counterexample: Python's `$` also matches just before a trailing
newline, so `re.match(r"^[A-Za-z0-9]{2,8}$", "AB\n")` succeeds and the
validator accepts a flight_id that is NOT a full-string match of the
pattern — contradicting the claim's "no other strings, such as ones with
extra trailing characters, are accepted". -/
theorem validate_regex_trailing_newline_cex :
    ¬ (("Invalid flight_id" ∈
          validateFields "AB\n" "JFK" "LAX" "2025-12-01 09:00" "2025-12-01 12:00" "9.99") ↔
        ¬ fullAlnum28 "AB\n".data = true) := by
  decide

/-- C7 (amended): "Invalid flight_id" is appended iff the field is neither
a full-string match of `[A-Za-z0-9]{2,8}` nor such a match followed by one
trailing newline; likewise "Invalid origin" / "Invalid destination" with
`[A-Z]{3}` (the trailing-newline exception is forced by Python's `$`). -/
theorem validate_regex_rules (i o d dd ad p : String) :
    ("Invalid flight_id" ∈ validateFields i o d dd ad p ↔
      ¬ (fullAlnum28 i.data = true ∨
         (i.data.getLast? = some '\n' ∧ fullAlnum28 i.data.dropLast = true))) ∧
    ("Invalid origin" ∈ validateFields i o d dd ad p ↔
      ¬ (fullUpper3 o.data = true ∨
         (o.data.getLast? = some '\n' ∧ fullUpper3 o.data.dropLast = true))) ∧
    ("Invalid destination" ∈ validateFields i o d dd ad p ↔
      ¬ (fullUpper3 d.data = true ∨
         (d.data.getLast? = some '\n' ∧ fullUpper3 d.data.dropLast = true))) := by
  refine ⟨?_, ?_, ?_⟩
  · rw [mem_invalid_flight_id, ← reMatchAlnum28_iff]
    rcases h : reMatchAlnum28 i <;> simp [h]
  · rw [mem_invalid_origin, ← reMatchUpper3_iff]
    rcases h : reMatchUpper3 o <;> simp [h]
  · rw [mem_invalid_destination, ← reMatchUpper3_iff]
    rcases h : reMatchUpper3 d <;> simp [h]

/-- C1: for every input of exactly six string fields, `validate_record`
returns the violation reasons appended in the fixed order flight_id,
origin, destination, departure_datetime, arrival_datetime, chronological
check, price, with every check run; and "Arrival not after departure" is
in the result if and only if both datetime fields parse under the format
`%Y-%m-%d %H:%M` and the arrival is not strictly later than the departure
(so it never appears when either datetime failed to parse). -/
theorem validate_record_fixed_order (i o d dd ad p : String) :
    validate_record [i, o, d, dd, ad, p] = some (
      (if reMatchAlnum28 i then [] else ["Invalid flight_id"]) ++
      (if reMatchUpper3 o then [] else ["Invalid origin"]) ++
      (if reMatchUpper3 d then [] else ["Invalid destination"]) ++
      (if (strptimeYmdHM dd).isSome then [] else ["Invalid departure_datetime"]) ++
      (if (strptimeYmdHM ad).isSome then [] else ["Invalid arrival_datetime"]) ++
      (match strptimeYmdHM dd, strptimeYmdHM ad with
       | some dep, some arr => if dtLt dep arr then [] else ["Arrival not after departure"]
       | _, _ => []) ++
      (match pyFloat p with
       | some v => if v.pos then [] else ["Invalid price"]
       | none => ["Invalid price"])) ∧
    ("Arrival not after departure" ∈ validateFields i o d dd ad p ↔
      ∃ dep arr, strptimeYmdHM dd = some dep ∧ strptimeYmdHM ad = some arr ∧
        dtLe arr dep = true) := by
  constructor
  · rw [validate_record]
    exact congrArg some (validateFields_eq i o d dd ad p)
  · rw [validateFields_eq]
    cases hdep : strptimeYmdHM dd <;> cases harr : strptimeYmdHM ad <;>
      cases hp : pyFloat p <;>
        simp [mem_ite_nil_single, dtLe_iff_not_lt, Bool.not_eq_true]

/-- C3: `parse_csv_file` classifies each line exactly one way — blank lines
produce nothing, comment lines an entry with reason "Comment", lines whose
comma-split trimmed field count is not six an entry with reason "Invalid
number of fields", and otherwise the validator decides between a flight
record and an entry joining the violations with ", " — and the line counter
advances by one for every physical line, blanks and comments included.
`parseCsvRec` is that case analysis, written as the specification words
it. -/
theorem parse_csv_file_classification (lines : List String) (n : Nat) :
    parse_csv_file lines n = parseCsvRec lines n ∧
    (parse_csv_file lines n).2.2 = n + lines.length :=
  ⟨parse_csv_file_eq_rec lines n, by
    rw [parse_csv_file_eq_rec]
    exact parseCsvRec_next lines n⟩

/-- C4: every error entry of a parse starting at line `n` has a line number
in `[n, m)` where `m` is the returned next line number, the entries' line
numbers strictly increase, and chaining a second source on the returned
counter keeps the combined error line numbers strictly increasing across
the source boundary. -/
theorem parse_csv_file_line_numbers (s1 s2 : List String) (n : Nat) :
    ((parse_csv_file s1 n).2.1.all
      (fun x => decide (n ≤ x.1) && decide (x.1 < (parse_csv_file s1 n).2.2))) = true ∧
    List.Pairwise (fun x y => x < y)
      (((parse_csv_file s1 n).2.1 ++
        (parse_csv_file s2 (parse_csv_file s1 n).2.2).2.1).map (fun x => x.1)) := by
  obtain ⟨hb1, hp1⟩ := parse_csv_err_props s1 n
  obtain ⟨hb2, hp2⟩ := parse_csv_err_props s2 (parse_csv_file s1 n).2.2
  constructor
  · rw [List.all_eq_true]
    intro x hx
    have := hb1 x hx
    simp only [Bool.and_eq_true, decide_eq_true_eq]
    omega
  · rw [List.map_append]
    refine List.pairwise_append.mpr ⟨hp1, hp2, ?_⟩
    intro a ha b hb
    simp only [List.mem_map] at ha hb
    obtain ⟨x, hx, rfl⟩ := ha
    obtain ⟨y, hy, rfl⟩ := hb
    have h1 := hb1 x hx
    have h2 := hb2 y hy
    omega

/-- C2: for every flight record and every query, `flight_matches_query`
returns true iff every key present in the query satisfies its predicate
(exact string equality for flight_id/origin/destination, parsed record
price at most parsed query price with an unparsable query price failing
the predicate, and the lexicographic datetime bounds); absent keys impose
no constraint, so the empty query matches every record. -/
theorem flight_matches_query_iff_spec (f : Flight) (q : Query) :
    flight_matches_query f.toPartial q = some (matchesSpec f q) ∧
    flight_matches_query f.toPartial emptyQuery = some true :=
  ⟨flight_matches_total f q, by rw [flight_matches_total f emptyQuery]; rfl⟩

/-- C9 counterexample: the claim asserts that for ANY query containing
`departure_datetime` and ANY record lacking that field the error branch is
reached; but when an earlier predicate already fails (here `flight_id`),
the evaluator returns the match decision `false` before ever touching the
missing field, so no error occurs at this concrete input. -/
theorem flight_matches_query_missing_field_cex :
    flight_matches_query
      ⟨some "B", none, none, none, none, none⟩
      ⟨some "A", none, none, none, some "2025-01-01 00:00", none⟩ = some false := by
  decide

theorem ite_some_false (c : Prop) [Decidable c] (k : Option Bool)
    (hk : k = some false) : (if c then some false else k) = some false := by
  split <;> simp [hk]

/-- C9 (amended): with all six fields present the evaluator always returns
a boolean; and for a query containing `departure_datetime` (respectively
`arrival_datetime`) and a record lacking that field, the error branch is
reached — returning no match decision — provided every predicate evaluated
earlier passes (the exact-match keys and the price check, and for the
arrival case no departure key intervenes). -/
theorem flight_matches_query_totality_and_missing :
    (∀ (f : Flight) (q : Query), (flight_matches_query f.toPartial q).isSome = true) ∧
    (∀ (p : PFlight) (q : Query) (qd : String),
      q.departure_datetime = some qd → p.departure_datetime = none →
      (q.flight_id.isSome && (p.flight_id != q.flight_id)) = false →
      (q.origin.isSome && (p.origin != q.origin)) = false →
      (q.destination.isSome && (p.destination != q.destination)) = false →
      priceOk p q = true →
      flight_matches_query p q = none) ∧
    (∀ (p : PFlight) (q : Query) (qa : String),
      q.arrival_datetime = some qa → p.arrival_datetime = none →
      q.departure_datetime = none →
      (q.flight_id.isSome && (p.flight_id != q.flight_id)) = false →
      (q.origin.isSome && (p.origin != q.origin)) = false →
      (q.destination.isSome && (p.destination != q.destination)) = false →
      priceOk p q = true →
      flight_matches_query p q = none) := by
  refine ⟨?_, ?_, ?_⟩
  · intro f q
    rw [flight_matches_total]
    rfl
  · intro p q qd hqd hpd h1 h2 h3 hp
    simp [flight_matches_query, h1, h2, h3, hp, hqd, hpd]
  · intro p q qa hqa hpa hqd h1 h2 h3 hp
    simp [flight_matches_query, h1, h2, h3, hp, hqa, hpa, hqd]

/-- C9 witness: a record lacking `departure_datetime` queried on that key,
with every earlier check passing — the evaluator reaches the error branch. -/
theorem flight_matches_query_totality_and_missing_witness :
    flight_matches_query ⟨some "B", none, none, none, none, none⟩
      ⟨none, none, none, none, some "2025-01-01 00:00", none⟩ = none :=
  flight_matches_query_totality_and_missing.2.1
    ⟨some "B", none, none, none, none, none⟩
    ⟨none, none, none, none, some "2025-01-01 00:00", none⟩
    "2025-01-01 00:00" rfl rfl rfl rfl rfl rfl

theorem Dec.nonneg_iff_toRat (d : Dec) : 0 ≤ d.toRat ↔ 0 ≤ d.num := by
  rw [Dec.toRat, le_div_iff₀ (by positivity)]
  constructor
  · intro h
    have : (0 : ℚ) ≤ (d.num : ℚ) := by simpa using h
    exact_mod_cast this
  · intro h
    have : (0 : ℚ) ≤ (d.num : ℚ) := by exact_mod_cast h
    simpa using this

/-- C10: with a `price` key in the query, the evaluator returns false both
when the query's price is unparsable and when the record's own price string
is unparsable; and a record with no `price` field is evaluated with the
default `"0"`, so it passes the price predicate for every query price that
parses to a value at least 0. -/
theorem price_filter_failure_modes :
    (∀ (p : PFlight) (q : Query) (qs : String),
      q.price = some qs → pyFloat qs = none →
      flight_matches_query p q = some false) ∧
    (∀ (p : PFlight) (q : Query) (qs s : String),
      q.price = some qs → p.price = some s → pyFloat s = none →
      flight_matches_query p q = some false) ∧
    (∀ (p : PFlight) (q : Query) (qs : String) (qv : Dec),
      p.price = none → q.price = some qs → pyFloat qs = some qv →
      0 ≤ qv.toRat → priceOk p q = true) := by
  refine ⟨?_, ?_, ?_⟩
  · intro p q qs hq hqs
    simp only [flight_matches_query]
    apply ite_some_false
    apply ite_some_false
    apply ite_some_false
    have : priceOk p q = false := by simp [priceOk, hq, hqs]
    simp [this]
  · intro p q qs s hq hp hs
    simp only [flight_matches_query]
    apply ite_some_false
    apply ite_some_false
    apply ite_some_false
    have : priceOk p q = false := by
      simp only [priceOk, hq, hp, Option.getD]
      cases pyFloat qs <;> simp [hs]
    simp [this]
  · intro p q qs qv hp hq hqs hge
    have hnum : 0 ≤ qv.num := (Dec.nonneg_iff_toRat qv).mp hge
    have h0 : pyFloat "0" = some ⟨0, 0⟩ := by decide
    simp only [priceOk, hq, hqs, hp, Option.getD, h0]
    simp only [Dec.lt, decide_eq_true_eq]
    simp only [Bool.not_eq_true']
    rw [decide_eq_false_iff_not]
    simp
    omega

/-- C10 witness: a query price that parses against a record with an
unparsable price, and a record with no price field against a nonnegative
query price. -/
theorem price_filter_failure_modes_witness :
    flight_matches_query ⟨some "AB12", none, none, none, none, some "bad"⟩
      ⟨none, none, none, some "100", none, none⟩ = some false ∧
    priceOk ⟨some "AB12", none, none, none, none, none⟩
      ⟨none, none, none, some "100", none, none⟩ = true :=
  ⟨price_filter_failure_modes.2.1
      ⟨some "AB12", none, none, none, none, some "bad"⟩
      ⟨none, none, none, some "100", none, none⟩ "100" "bad" rfl rfl (by decide),
   price_filter_failure_modes.2.2
      ⟨some "AB12", none, none, none, none, none⟩
      ⟨none, none, none, some "100", none, none⟩ "100" ⟨100, 0⟩
      rfl rfl (by decide) (by norm_num [Dec.toRat])⟩

end FlightParser
